import Mathlib

/-!
Verification development for the solang-parser parse-tree (PT) model:
a shallow embedding of `src/solang-parser/src/pt.rs` and
`src/solang-parser/src/codegen.rs` in Lean 4, together with theorems
settling the specification claims about them.

Modelling conventions:
* Rust `Vec<T>` becomes `List T`, `Option<T>` becomes `Option T`, boxes
  are erased, `String` stays `String`, machine integers (`u8`, `u16`,
  `usize`) become `Nat` (no arithmetic is performed on them anywhere in
  the modelled code, so no overflow discipline is needed).
* Functions that can `panic!`/`assert!`/`unreachable!`/index out of
  bounds are embedded as `Option`-returning functions; `none` models the
  abort.
* Rust structs that sit inside a recursive knot are single-constructor
  inductives (Lean `structure` cannot appear in a `mutual` block);
  field accessors are defined separately.
-/

namespace Solang

/-- Source location (pt.rs `Loc`): provenance sentinels or a
`File(file_no, start, end)` byte range. -/
inductive Loc where
  | Builtin
  | CommandLine
  | Implicit
  | Codegen
  | File (file_no : Nat) (start : Nat) (end_ : Nat)
deriving DecidableEq

/-- pt.rs `impl PartialEq for Loc`: `fn eq(&self, _: &Self) -> bool { true }`.
Any two locations compare equal, regardless of contents. -/
def Loc.eq (_ _ : Loc) : Bool :=
  true

/-- Model of the `#[derive(Hash)]` implementation on `Loc`: the sequence
of primitive values the derived `Hash::hash` feeds to the hasher — the
variant discriminant, followed by the three `usize` fields for `File`.
Two `Loc` values are hashed identically by the derived implementation
iff they feed identical data, i.e. iff their `hashData` agree. -/
def Loc.hashData : Loc → List Nat
  | .Builtin => [0]
  | .CommandLine => [1]
  | .Implicit => [2]
  | .Codegen => [3]
  | .File f s e => [4, f, s, e]

/-- Is this the `Codegen` provenance sentinel? -/
def Loc.isCodegen : Loc → Bool
  | .Codegen => true
  | _ => false

/-- Derived `PartialEq` on `Option<Loc>` (as it appears inside
`Visibility`): the option structure is compared for real, the inner
locations via the trivial `Loc` equality. -/
def optLocEq : Option Loc → Option Loc → Bool
  | none, none => true
  | some a, some b => Loc.eq a b
  | _, _ => false

/-!
Model of the `pretty` crate documents as used by the printer.

The printer only ever builds documents from `nil`, `text`, `append`,
`space` (which the crate defines as `text " "`), `line`, `hardline`,
`nest` and `intersperse`. It never uses `group`, `softline`, unions or
flat-alternatives, so the best-layout search of `render_fmt(width, ..)`
never branches: `line` always renders as a hard newline and the width
argument (70 in `Docable::display`) has no influence on the output.
The rendering function below therefore takes only the current
indentation, exactly reproducing the crate's behaviour on this subset.
-/

/-- Abstract layout document (the fragment of `pretty::RcDoc` the
printer uses). -/
inductive Doc where
  | nil
  | text (s : String)
  | append (a b : Doc)
  | line
  | hardline
  | nest (n : Nat) (d : Doc)
deriving DecidableEq

/-- `RcDoc::space()`: the pretty crate allocates a single-space text. -/
def Doc.space : Doc :=
  .text " "

/-- Render a document at a given indentation: text is emitted verbatim,
`line`/`hardline` emit a newline followed by the current indentation,
`nest n` increases the indentation of the enclosed document by `n`. -/
def Doc.render : Doc → Nat → String
  | .nil, _ => ""
  | .text s, _ => s
  | .append a b, i => a.render i ++ b.render i
  | .line, i => "\n" ++ String.mk (List.replicate i ' ')
  | .hardline, i => "\n" ++ String.mk (List.replicate i ' ')
  | .nest n d, i => d.render (i + n)

/-- `doc.render_fmt(width, ..)`: since the printer's documents contain
no groups, the width never influences the layout. -/
def Doc.renderFmt (_width : Nat) (d : Doc) : String :=
  d.render 0

/-- `Docable::display`: render the document at width 70. -/
def displayDoc (d : Doc) : String :=
  Doc.renderFmt 70 d

/-- `RcDoc::intersperse`: join a list of documents with a separator. -/
def Doc.intersperse : List Doc → Doc → Doc
  | [], _ => .nil
  | [d], _ => d
  | d :: ds, sep => d.append (sep.append (Doc.intersperse ds sep))

/-- pt.rs `list_to_doc`, applied to already-converted element
documents: comma-space separated list. -/
def list_to_doc (ds : List Doc) : Doc :=
  Doc.intersperse ds ((Doc.text ",").append Doc.space)

/-- pt.rs `indent_list_to_doc`: each element on its own line, indented
by 4, comma separated, with a trailing line break. -/
def indent_list_to_doc (ds : List Doc) : Doc :=
  (Doc.intersperse (ds.map fun d => Doc.nest 4 (Doc.hardline.append d))
      (Doc.text ",")).append Doc.hardline

/-- pt.rs `spaced_list_to_doc`: space separated list. -/
def spaced_list_to_doc (ds : List Doc) : Doc :=
  Doc.intersperse ds Doc.space

/-- pt.rs `space_if`. -/
def space_if (cond : Bool) : Doc :=
  if cond then Doc.space else Doc.nil

/-- pt.rs `option_to_doc`, applied to an already-converted optional
element document. -/
def option_to_doc : Option Doc → Doc
  | some d => d
  | none => .nil

/-- pt.rs `option_space_to_doc`. -/
def option_space_to_doc : Option Doc → Doc
  | some d => d.append Doc.space
  | none => .nil

/-- pt.rs `option_box_to_doc` (boxes are erased in the embedding). -/
def option_box_to_doc : Option Doc → Doc
  | some d => d
  | none => .nil

/-- pt.rs `paren_list_to_doc`. -/
def paren_list_to_doc (ds : List Doc) : Doc :=
  (Doc.text "(").append ((list_to_doc ds).append (Doc.text ")"))

/-- pt.rs `Identifier`. -/
structure Identifier where
  loc : Loc
  name : String

/-- pt.rs `IdentifierPath`. -/
structure IdentifierPath where
  loc : Loc
  identifiers : List Identifier

/-- pt.rs `StringLiteral`. -/
structure StringLiteral where
  loc : Loc
  unicode : Bool
  string : String

/-- pt.rs `HexLiteral`. -/
structure HexLiteral where
  loc : Loc
  hex : String

/-- pt.rs `StorageLocation`. -/
inductive StorageLocation where
  | Memory (l : Loc)
  | Storage (l : Loc)
  | Calldata (l : Loc)

/-- pt.rs `Mutability`. -/
inductive Mutability where
  | Pure (l : Loc)
  | View (l : Loc)
  | Constant (l : Loc)
  | Payable (l : Loc)

/-- pt.rs `Visibility`; the location of the specifier is optional. -/
inductive Visibility where
  | External (l : Option Loc)
  | Public (l : Option Loc)
  | Internal (l : Option Loc)
  | Private (l : Option Loc)

/-- pt.rs `FunctionTy`. -/
inductive FunctionTy where
  | Constructor
  | Function
  | Fallback
  | Receive
  | Modifier
deriving DecidableEq

/-- pt.rs `Unit` (unit suffixes on literals). -/
inductive Unit where
  | Seconds (l : Loc)
  | Minutes (l : Loc)
  | Hours (l : Loc)
  | Days (l : Loc)
  | Weeks (l : Loc)
  | Wei (l : Loc)
  | Gwei (l : Loc)
  | Ether (l : Loc)

set_option maxHeartbeats 2000000

/-!
The Yul sub-model is a sibling AST: it never references the Solidity
`Expression`/`Statement` sums, only the lexical leaves, so its
recursive knot is declared separately.
-/

mutual

/-- pt.rs `YulBlock`. -/
inductive YulBlock where
  | mk (loc : Loc) (statements : List YulStatement)

/-- pt.rs `YulStatement`. -/
inductive YulStatement where
  | Assign (loc : Loc) (targets : List YulExpression) (e : YulExpression)
  | VariableDeclaration (loc : Loc) (ids : List YulTypedIdentifier)
      (init : Option YulExpression)
  | If (loc : Loc) (cond : YulExpression) (body : YulBlock)
  | For (f : YulFor)
  | Switch (s : YulSwitch)
  | Leave (loc : Loc)
  | Break (loc : Loc)
  | Continue (loc : Loc)
  | Block (b : YulBlock)
  | FunctionDefinition (d : YulFunctionDefinition)
  | FunctionCall (c : YulFunctionCall)

/-- pt.rs `YulSwitch`. -/
inductive YulSwitch where
  | mk (loc : Loc) (condition : YulExpression)
      (cases : List YulSwitchOptions) (default : Option YulSwitchOptions)

/-- pt.rs `YulFor`. -/
inductive YulFor where
  | mk (loc : Loc) (init_block : YulBlock) (condition : YulExpression)
      (post_block : YulBlock) (execution_block : YulBlock)

/-- pt.rs `YulExpression`. -/
inductive YulExpression where
  | BoolLiteral (loc : Loc) (b : Bool) (ty : Option Identifier)
  | NumberLiteral (loc : Loc) (num : String) (exp : String)
      (ty : Option Identifier)
  | HexNumberLiteral (loc : Loc) (s : String) (ty : Option Identifier)
  | HexStringLiteral (h : HexLiteral) (ty : Option Identifier)
  | StringLiteral (s : StringLiteral) (ty : Option Identifier)
  | Variable (id : Identifier)
  | FunctionCall (c : YulFunctionCall)
  | SuffixAccess (loc : Loc) (e : YulExpression) (id : Identifier)

/-- pt.rs `YulTypedIdentifier`. -/
inductive YulTypedIdentifier where
  | mk (loc : Loc) (id : Identifier) (ty : Option Identifier)

/-- pt.rs `YulFunctionDefinition`. -/
inductive YulFunctionDefinition where
  | mk (loc : Loc) (id : Identifier) (params : List YulTypedIdentifier)
      (returns : List YulTypedIdentifier) (body : YulBlock)

/-- pt.rs `YulFunctionCall`. -/
inductive YulFunctionCall where
  | mk (loc : Loc) (id : Identifier) (arguments : List YulExpression)

/-- pt.rs `YulSwitchOptions`. -/
inductive YulSwitchOptions where
  | Case (loc : Loc) (e : YulExpression) (b : YulBlock)
  | Default (loc : Loc) (b : YulBlock)

end

mutual

/-- pt.rs `Type` (named `Ty` here: `Type` is a Lean sort). -/
inductive Ty where
  | Address
  | AddressPayable
  | Payable
  | Bool
  | String
  | Int (n : Nat)
  | Uint (n : Nat)
  | Bytes (n : Nat)
  | Rational
  | DynamicBytes
  | Mapping (l : Loc) (from_ : Expression) (to_ : Expression)
  | Function (params : List (Loc × Option Parameter))
      (attributes : List FunctionAttribute)
      (returns : Option (List (Loc × Option Parameter) × List FunctionAttribute))

/-- pt.rs `Parameter` (single-constructor inductive: it sits in the
recursive knot through its `ty` expression). -/
inductive Parameter where
  | mk (loc : Loc) (ty : Expression) (storage : Option StorageLocation)
      (name : Option Identifier)

/-- pt.rs `VariableDeclaration`. -/
inductive VariableDeclaration where
  | mk (loc : Loc) (ty : Expression) (storage : Option StorageLocation)
      (name : Identifier)

/-- pt.rs `NamedArgument`. -/
inductive NamedArgument where
  | mk (loc : Loc) (name : Identifier) (expr : Expression)

/-- pt.rs `Base` (a base contract reference with optional args). -/
inductive Base where
  | mk (loc : Loc) (name : IdentifierPath) (args : Option (List Expression))

/-- pt.rs `FunctionAttribute`. -/
inductive FunctionAttribute where
  | Mutability (m : Mutability)
  | Visibility (v : Visibility)
  | Virtual (l : Loc)
  | Immutable (l : Loc)
  | Override (l : Loc) (ids : List IdentifierPath)
  | BaseOrModifier (l : Loc) (base : Base)

/-- pt.rs `Expression`: the full Solidity expression grammar. -/
inductive Expression where
  | PostIncrement (l : Loc) (e : Expression)
  | PostDecrement (l : Loc) (e : Expression)
  | New (l : Loc) (e : Expression)
  | ArraySubscript (l : Loc) (e : Expression) (index : Option Expression)
  | ArraySlice (l : Loc) (e : Expression) (lo : Option Expression)
      (hi : Option Expression)
  | Parenthesis (l : Loc) (e : Expression)
  | MemberAccess (l : Loc) (e : Expression) (field : Identifier)
  | FunctionCall (l : Loc) (fn : Expression) (args : List Expression)
  | FunctionCallBlock (l : Loc) (base : Expression) (block : Statement)
  | NamedFunctionCall (l : Loc) (fn : Expression) (args : List NamedArgument)
  | Not (l : Loc) (e : Expression)
  | Complement (l : Loc) (e : Expression)
  | Delete (l : Loc) (e : Expression)
  | PreIncrement (l : Loc) (e : Expression)
  | PreDecrement (l : Loc) (e : Expression)
  | UnaryPlus (l : Loc) (e : Expression)
  | UnaryMinus (l : Loc) (e : Expression)
  | Power (l : Loc) (a b : Expression)
  | Multiply (l : Loc) (a b : Expression)
  | Divide (l : Loc) (a b : Expression)
  | Modulo (l : Loc) (a b : Expression)
  | Add (l : Loc) (a b : Expression)
  | Subtract (l : Loc) (a b : Expression)
  | ShiftLeft (l : Loc) (a b : Expression)
  | ShiftRight (l : Loc) (a b : Expression)
  | BitwiseAnd (l : Loc) (a b : Expression)
  | BitwiseXor (l : Loc) (a b : Expression)
  | BitwiseOr (l : Loc) (a b : Expression)
  | Less (l : Loc) (a b : Expression)
  | More (l : Loc) (a b : Expression)
  | LessEqual (l : Loc) (a b : Expression)
  | MoreEqual (l : Loc) (a b : Expression)
  | Equal (l : Loc) (a b : Expression)
  | NotEqual (l : Loc) (a b : Expression)
  | And (l : Loc) (a b : Expression)
  | Or (l : Loc) (a b : Expression)
  | Ternary (l : Loc) (c a b : Expression)
  | Assign (l : Loc) (a b : Expression)
  | AssignOr (l : Loc) (a b : Expression)
  | AssignAnd (l : Loc) (a b : Expression)
  | AssignXor (l : Loc) (a b : Expression)
  | AssignShiftLeft (l : Loc) (a b : Expression)
  | AssignShiftRight (l : Loc) (a b : Expression)
  | AssignAdd (l : Loc) (a b : Expression)
  | AssignSubtract (l : Loc) (a b : Expression)
  | AssignMultiply (l : Loc) (a b : Expression)
  | AssignDivide (l : Loc) (a b : Expression)
  | AssignModulo (l : Loc) (a b : Expression)
  | BoolLiteral (l : Loc) (b : Bool)
  | NumberLiteral (l : Loc) (num : String) (exp : String)
  | RationalNumberLiteral (l : Loc) (int : String) (frac : String)
      (exp : String)
  | HexNumberLiteral (l : Loc) (s : String)
  | StringLiteral (lits : List StringLiteral)
  | «Type» (l : Loc) (ty : Ty)
  | HexLiteral (lits : List HexLiteral)
  | AddressLiteral (l : Loc) (s : String)
  | Variable (id : Identifier)
  | List (l : Loc) (ps : List (Loc × Option Parameter))
  | ArrayLiteral (l : Loc) (es : List Expression)
  | Unit (l : Loc) (e : Expression) (unit : Unit)
  | This (l : Loc)

/-- pt.rs `Statement`. -/
inductive Statement where
  | Block (loc : Loc) (unchecked : Bool) (statements : List Statement)
  | Assembly (loc : Loc) (dialect : Option StringLiteral)
      (flags : Option (List StringLiteral)) (block : YulBlock)
  | Args (loc : Loc) (args : List NamedArgument)
  | If (loc : Loc) (cond : Expression) (tb : Statement)
      (fb : Option Statement)
  | While (loc : Loc) (cond : Expression) (body : Statement)
  | Expression (loc : Loc) (e : Expression)
  | VariableDefinition (loc : Loc) (decl : VariableDeclaration)
      (init : Option Expression)
  | For (loc : Loc) (init : Option Statement) (cond : Option Expression)
      (post : Option Statement) (body : Option Statement)
  | DoWhile (loc : Loc) (body : Statement) (cond : Expression)
  | Continue (loc : Loc)
  | Break (loc : Loc)
  | Return (loc : Loc) (e : Option Expression)
  | Revert (loc : Loc) (path : Option IdentifierPath)
      (args : List Expression)
  | RevertNamedArgs (loc : Loc) (path : Option IdentifierPath)
      (args : List NamedArgument)
  | Emit (loc : Loc) (e : Expression)
  | Try (loc : Loc) (e : Expression)
      (ok : Option (List (Loc × Option Parameter) × Statement))
      (catches : List CatchClause)

/-- pt.rs `CatchClause`. -/
inductive CatchClause where
  | Simple (loc : Loc) (p : Option Parameter) (s : Statement)
  | Named (loc : Loc) (id : Identifier) (p : Parameter) (s : Statement)

end

/-- pt.rs `ParameterList`: ordered optional parameters with slot
locations. -/
abbrev ParameterList := List (Loc × Option Parameter)

/-- Field accessor for `Parameter.loc`. -/
def Parameter.loc : Parameter → Loc
  | .mk l _ _ _ => l

/-- Field accessor for `Parameter.ty`. -/
def Parameter.ty : Parameter → Expression
  | .mk _ t _ _ => t

/-- Field accessor for `Parameter.storage`. -/
def Parameter.storage : Parameter → Option StorageLocation
  | .mk _ _ s _ => s

/-- Field accessor for `Parameter.name`. -/
def Parameter.name : Parameter → Option Identifier
  | .mk _ _ _ n => n

/-- Field accessor for `VariableDeclaration.loc`. -/
def VariableDeclaration.loc : VariableDeclaration → Loc
  | .mk l _ _ _ => l

/-- Field accessor for `VariableDeclaration.ty`. -/
def VariableDeclaration.ty : VariableDeclaration → Expression
  | .mk _ t _ _ => t

/-- Field accessor for `VariableDeclaration.storage`. -/
def VariableDeclaration.storage : VariableDeclaration → Option StorageLocation
  | .mk _ _ s _ => s

/-- Field accessor for `VariableDeclaration.name`. -/
def VariableDeclaration.name : VariableDeclaration → Identifier
  | .mk _ _ _ n => n

/-- Field accessor for `YulBlock.loc`. -/
def YulBlock.loc : YulBlock → Loc
  | .mk l _ => l

/-- Field accessor for `YulFor.loc`. -/
def YulFor.loc : YulFor → Loc
  | .mk l _ _ _ _ => l

/-- Field accessor for `YulSwitch.loc`. -/
def YulSwitch.loc : YulSwitch → Loc
  | .mk l _ _ _ => l

/-- Field accessor for `YulFunctionDefinition.loc`. -/
def YulFunctionDefinition.loc : YulFunctionDefinition → Loc
  | .mk l _ _ _ _ => l

/-- Field accessor for `YulFunctionCall.loc`. -/
def YulFunctionCall.loc : YulFunctionCall → Loc
  | .mk l _ _ => l

/-- pt.rs `EventParameter`. -/
structure EventParameter where
  ty : Expression
  loc : Loc
  indexed : Bool
  name : Option Identifier

/-- pt.rs `EventDefinition`. -/
structure EventDefinition where
  loc : Loc
  name : Identifier
  fields : List EventParameter
  anonymous : Bool

/-- pt.rs `ErrorParameter`. -/
structure ErrorParameter where
  ty : Expression
  loc : Loc
  name : Option Identifier

/-- pt.rs `ErrorDefinition`. -/
structure ErrorDefinition where
  loc : Loc
  name : Identifier
  fields : List ErrorParameter

/-- pt.rs `EnumDefinition`. -/
structure EnumDefinition where
  loc : Loc
  name : Identifier
  values : List Identifier

/-- pt.rs `VariableAttribute`. -/
inductive VariableAttribute where
  | Visibility (v : Visibility)
  | Constant (l : Loc)
  | Immutable (l : Loc)
  | Override (l : Loc) (ids : List IdentifierPath)

/-- pt.rs `VariableDefinition`. -/
structure VariableDefinition where
  loc : Loc
  ty : Expression
  attrs : List VariableAttribute
  name : Identifier
  initializer : Option Expression

/-- pt.rs `TypeDefinition`. -/
structure TypeDefinition where
  loc : Loc
  name : Identifier
  ty : Expression

/-- pt.rs `StructDefinition`. -/
structure StructDefinition where
  loc : Loc
  name : Identifier
  fields : List VariableDeclaration

/-- pt.rs `UsingList`. -/
inductive UsingList where
  | Library (p : IdentifierPath)
  | Functions (ps : List IdentifierPath)

/-- pt.rs `Using`. -/
structure Using where
  loc : Loc
  list : UsingList
  ty : Option Expression
  global : Option Identifier

/-- pt.rs `ContractTy`. -/
inductive ContractTy where
  | Abstract (l : Loc)
  | Contract (l : Loc)
  | Interface (l : Loc)
  | Library (l : Loc)

/-- pt.rs `FunctionDefinition`. -/
structure FunctionDefinition where
  loc : Loc
  ty : FunctionTy
  name : Option Identifier
  name_loc : Loc
  params : ParameterList
  attributes : List FunctionAttribute
  return_not_returns : Option Loc
  returns : ParameterList
  body : Option Statement

/-- pt.rs `ContractPart`. -/
inductive ContractPart where
  | StructDefinition (d : StructDefinition)
  | EventDefinition (d : EventDefinition)
  | EnumDefinition (d : EnumDefinition)
  | ErrorDefinition (d : ErrorDefinition)
  | VariableDefinition (d : VariableDefinition)
  | FunctionDefinition (d : FunctionDefinition)
  | TypeDefinition (d : TypeDefinition)
  | StraySemicolon (l : Loc)
  | Using (u : Using)

/-- pt.rs `Base` list and parts of a `ContractDefinition`. -/
structure ContractDefinition where
  loc : Loc
  ty : ContractTy
  name : Identifier
  base : List Base
  parts : List ContractPart

/-- pt.rs `Import`. -/
inductive Import where
  | Plain (s : StringLiteral) (l : Loc)
  | GlobalSymbol (s : StringLiteral) (id : Identifier) (l : Loc)
  | Rename (s : StringLiteral)
      (renames : List (Identifier × Option Identifier)) (l : Loc)

/-- pt.rs `SourceUnitPart`. -/
inductive SourceUnitPart where
  | ContractDefinition (d : ContractDefinition)
  | PragmaDirective (l : Loc) (id : Identifier) (s : StringLiteral)
  | ImportDirective (i : Import)
  | EnumDefinition (d : EnumDefinition)
  | StructDefinition (d : StructDefinition)
  | EventDefinition (d : EventDefinition)
  | ErrorDefinition (d : ErrorDefinition)
  | FunctionDefinition (d : FunctionDefinition)
  | VariableDefinition (d : VariableDefinition)
  | TypeDefinition (d : TypeDefinition)
  | Using (u : Using)
  | StraySemicolon (l : Loc)

/-- pt.rs `SourceUnit`: ordered top-level parts. -/
structure SourceUnit where
  parts : List SourceUnitPart

/-!
Display implementations (`impl fmt::Display`) for the leaf nodes the
printer stringifies, and the uniform location accessors.
-/

/-- `Display for Identifier`: just the name. -/
def Identifier.toStr (i : Identifier) : String :=
  i.name

/-- `Display for IdentifierPath`: empty path prints empty, otherwise
the identifier names joined with dots, in order. -/
def IdentifierPath.toStr (p : IdentifierPath) : String :=
  match p.identifiers with
  | [] => ""
  | i :: rest => rest.foldl (fun acc id => acc ++ "." ++ id.toStr) i.toStr

/-- `Display for StorageLocation`. -/
def StorageLocation.toStr : StorageLocation → String
  | .Memory _ => "memory"
  | .Storage _ => "storage"
  | .Calldata _ => "calldata"

/-- `Display for Mutability`: note `Constant` renders as "view". -/
def Mutability.toStr : Mutability → String
  | .Pure _ => "pure"
  | .Constant _ => "view"
  | .View _ => "view"
  | .Payable _ => "payable"

/-- `Display for Visibility`. -/
def Visibility.toStr : Visibility → String
  | .Public _ => "public"
  | .External _ => "external"
  | .Internal _ => "internal"
  | .Private _ => "private"

/-- `Display for FunctionTy`. -/
def FunctionTy.toStr : FunctionTy → String
  | .Constructor => "constructor"
  | .Function => "function"
  | .Fallback => "fallback"
  | .Receive => "receive"
  | .Modifier => "modifier"

/-- `Display for ContractTy`: the display form does distinguish the
contract kind. -/
def ContractTy.toStr : ContractTy → String
  | .Abstract _ => "abstract contract"
  | .Contract _ => "contract"
  | .Interface _ => "interface"
  | .Library _ => "library"

/-- `CodeLocation for Expression`: every variant stores its own outer
location, except string and hex sequence literals, which read
`v[0].loc` — a panic when the vector is empty, modelled by `none`. -/
def Expression.loc? : Expression → Option Loc
  | .PostIncrement l _ => some l
  | .PostDecrement l _ => some l
  | .New l _ => some l
  | .Parenthesis l _ => some l
  | .ArraySubscript l _ _ => some l
  | .ArraySlice l _ _ _ => some l
  | .MemberAccess l _ _ => some l
  | .FunctionCall l _ _ => some l
  | .FunctionCallBlock l _ _ => some l
  | .NamedFunctionCall l _ _ => some l
  | .Not l _ => some l
  | .Complement l _ => some l
  | .Delete l _ => some l
  | .PreIncrement l _ => some l
  | .PreDecrement l _ => some l
  | .UnaryPlus l _ => some l
  | .UnaryMinus l _ => some l
  | .Power l _ _ => some l
  | .Multiply l _ _ => some l
  | .Divide l _ _ => some l
  | .Modulo l _ _ => some l
  | .Add l _ _ => some l
  | .Subtract l _ _ => some l
  | .ShiftLeft l _ _ => some l
  | .ShiftRight l _ _ => some l
  | .BitwiseAnd l _ _ => some l
  | .BitwiseXor l _ _ => some l
  | .BitwiseOr l _ _ => some l
  | .Less l _ _ => some l
  | .More l _ _ => some l
  | .LessEqual l _ _ => some l
  | .MoreEqual l _ _ => some l
  | .Equal l _ _ => some l
  | .NotEqual l _ _ => some l
  | .And l _ _ => some l
  | .Or l _ _ => some l
  | .Ternary l _ _ _ => some l
  | .Assign l _ _ => some l
  | .AssignOr l _ _ => some l
  | .AssignAnd l _ _ => some l
  | .AssignXor l _ _ => some l
  | .AssignShiftLeft l _ _ => some l
  | .AssignShiftRight l _ _ => some l
  | .AssignAdd l _ _ => some l
  | .AssignSubtract l _ _ => some l
  | .AssignMultiply l _ _ => some l
  | .AssignDivide l _ _ => some l
  | .AssignModulo l _ _ => some l
  | .BoolLiteral l _ => some l
  | .NumberLiteral l _ _ => some l
  | .RationalNumberLiteral l _ _ _ => some l
  | .HexNumberLiteral l _ => some l
  | .ArrayLiteral l _ => some l
  | .List l _ => some l
  | .«Type» l _ => some l
  | .Unit l _ _ => some l
  | .This l => some l
  | .Variable id => some id.loc
  | .AddressLiteral l _ => some l
  | .StringLiteral v => v.head?.map StringLiteral.loc
  | .HexLiteral v => v.head?.map HexLiteral.loc

/-- `CodeLocation for Statement`: total, every variant stores its
location. -/
def Statement.loc : Statement → Loc
  | .Block l _ _ => l
  | .Assembly l _ _ _ => l
  | .Args l _ => l
  | .If l _ _ _ => l
  | .While l _ _ => l
  | .Expression l _ => l
  | .VariableDefinition l _ _ => l
  | .For l _ _ _ _ => l
  | .DoWhile l _ _ => l
  | .Continue l => l
  | .Break l => l
  | .Return l _ => l
  | .Revert l _ _ => l
  | .RevertNamedArgs l _ _ => l
  | .Emit l _ => l
  | .Try l _ _ _ => l

/-- `YulStatement::loc`: total, reading the location of the wrapped
aggregate where necessary. -/
def YulStatement.loc : YulStatement → Loc
  | .Assign l _ _ => l
  | .VariableDeclaration l _ _ => l
  | .If l _ _ => l
  | .Leave l => l
  | .Break l => l
  | .Continue l => l
  | .Block b => b.loc
  | .FunctionDefinition d => d.loc
  | .FunctionCall c => c.loc
  | .For f => f.loc
  | .Switch s => s.loc

/-- `Expression::remove_parenthesis`: peel exactly one layer of
grouping if present, else return the expression itself. -/
def Expression.remove_parenthesis : Expression → Expression
  | .Parenthesis _ e => e
  | e => e

/-!
Structural equality: the derived `PartialEq` implementations compare
fields pointwise. Location fields are compared via the overridden
trivial `Loc` equality, so two nodes are equal exactly when they agree
on everything except source locations. Containers (`Vec`, `Option`,
tuples) compare structurally for real: `Some` never equals `None`,
even for locations.
-/

/-- Derived `PartialEq` on a `Vec`, given the element comparison. -/
def listBeq (f : α → α → Bool) : List α → List α → Bool
  | [], [] => true
  | a :: as_, b :: bs => f a b && listBeq f as_ bs
  | _, _ => false

/-- Derived `PartialEq` on an `Option`, given the element comparison. -/
def optBeq (f : α → α → Bool) : Option α → Option α → Bool
  | none, none => true
  | some a, some b => f a b
  | _, _ => false

/-- Derived `PartialEq` for `Identifier`. -/
def Identifier.beq (a b : Identifier) : Bool :=
  Loc.eq a.loc b.loc && a.name == b.name

/-- Derived `PartialEq` for `IdentifierPath`. -/
def IdentifierPath.beq (a b : IdentifierPath) : Bool :=
  Loc.eq a.loc b.loc && listBeq Identifier.beq a.identifiers b.identifiers

/-- Derived `PartialEq` for `StringLiteral`. -/
def StringLiteral.beq (a b : StringLiteral) : Bool :=
  Loc.eq a.loc b.loc && a.unicode == b.unicode && a.string == b.string

/-- Derived `PartialEq` for `HexLiteral`. -/
def HexLiteral.beq (a b : HexLiteral) : Bool :=
  Loc.eq a.loc b.loc && a.hex == b.hex

/-- Derived `PartialEq` for `StorageLocation`. -/
def StorageLocation.beq : StorageLocation → StorageLocation → Bool
  | .Memory a, .Memory b => Loc.eq a b
  | .Storage a, .Storage b => Loc.eq a b
  | .Calldata a, .Calldata b => Loc.eq a b
  | _, _ => false

/-- Derived `PartialEq` for `Mutability`. -/
def Mutability.beq : Mutability → Mutability → Bool
  | .Pure a, .Pure b => Loc.eq a b
  | .View a, .View b => Loc.eq a b
  | .Constant a, .Constant b => Loc.eq a b
  | .Payable a, .Payable b => Loc.eq a b
  | _, _ => false

/-- Derived `PartialEq` for `Visibility`: the optional location
compares structurally (`Some` vs `None` matters), the inner `Loc`
trivially. -/
def Visibility.beq : Visibility → Visibility → Bool
  | .External a, .External b => optLocEq a b
  | .Public a, .Public b => optLocEq a b
  | .Internal a, .Internal b => optLocEq a b
  | .Private a, .Private b => optLocEq a b
  | _, _ => false

/-- Derived `PartialEq` for `FunctionTy`. -/
def FunctionTy.beq : FunctionTy → FunctionTy → Bool
  | .Constructor, .Constructor => true
  | .Function, .Function => true
  | .Fallback, .Fallback => true
  | .Receive, .Receive => true
  | .Modifier, .Modifier => true
  | _, _ => false

/-- Derived `PartialEq` for `Unit`. -/
def Unit.beq : Unit → Unit → Bool
  | .Seconds a, .Seconds b => Loc.eq a b
  | .Minutes a, .Minutes b => Loc.eq a b
  | .Hours a, .Hours b => Loc.eq a b
  | .Days a, .Days b => Loc.eq a b
  | .Weeks a, .Weeks b => Loc.eq a b
  | .Wei a, .Wei b => Loc.eq a b
  | .Gwei a, .Gwei b => Loc.eq a b
  | .Ether a, .Ether b => Loc.eq a b
  | _, _ => false

/-- Derived `PartialEq` for `ContractTy`: the discriminant decides,
the location compares trivially. -/
def ContractTy.beq : ContractTy → ContractTy → Bool
  | .Abstract a, .Abstract b => Loc.eq a b
  | .Contract a, .Contract b => Loc.eq a b
  | .Interface a, .Interface b => Loc.eq a b
  | .Library a, .Library b => Loc.eq a b
  | _, _ => false

mutual

/-- Derived `PartialEq` for `YulBlock`. -/
def YulBlock.beq : YulBlock → YulBlock → Bool
  | .mk l ss, .mk l' ss' => Loc.eq l l' && yulStmtsBeq ss ss'
termination_by structural x y => x

/-- Derived `PartialEq` for `YulStatement`. -/
def YulStatement.beq : YulStatement → YulStatement → Bool
  | .Assign l ts e, .Assign l' ts' e' =>
    Loc.eq l l' && yulExprsBeq ts ts' && YulExpression.beq e e'
  | .VariableDeclaration l ids i, .VariableDeclaration l' ids' i' =>
    Loc.eq l l' && yulTypedIdsBeq ids ids' && optYulExprBeq i i'
  | .If l c b, .If l' c' b' =>
    Loc.eq l l' && YulExpression.beq c c' && YulBlock.beq b b'
  | .For f, .For f' => YulFor.beq f f'
  | .Switch s, .Switch s' => YulSwitch.beq s s'
  | .Leave l, .Leave l' => Loc.eq l l'
  | .Break l, .Break l' => Loc.eq l l'
  | .Continue l, .Continue l' => Loc.eq l l'
  | .Block b, .Block b' => YulBlock.beq b b'
  | .FunctionDefinition d, .FunctionDefinition d' =>
    YulFunctionDefinition.beq d d'
  | .FunctionCall c, .FunctionCall c' => YulFunctionCall.beq c c'
  | _, _ => false
termination_by structural x y => x

/-- Derived `PartialEq` for `YulSwitch`. -/
def YulSwitch.beq : YulSwitch → YulSwitch → Bool
  | .mk l c cs d, .mk l' c' cs' d' =>
    Loc.eq l l' && YulExpression.beq c c' && yulSwitchOptsBeq cs cs' &&
      optYulSwitchOptBeq d d'
termination_by structural x y => x

/-- Derived `PartialEq` for `YulFor`. -/
def YulFor.beq : YulFor → YulFor → Bool
  | .mk l i c p x, .mk l' i' c' p' x' =>
    Loc.eq l l' && YulBlock.beq i i' && YulExpression.beq c c' &&
      YulBlock.beq p p' && YulBlock.beq x x'
termination_by structural x y => x

/-- Derived `PartialEq` for `YulExpression`. -/
def YulExpression.beq : YulExpression → YulExpression → Bool
  | .BoolLiteral l b t, .BoolLiteral l' b' t' =>
    Loc.eq l l' && b == b' && optBeq Identifier.beq t t'
  | .NumberLiteral l n e t, .NumberLiteral l' n' e' t' =>
    Loc.eq l l' && n == n' && e == e' && optBeq Identifier.beq t t'
  | .HexNumberLiteral l s t, .HexNumberLiteral l' s' t' =>
    Loc.eq l l' && s == s' && optBeq Identifier.beq t t'
  | .HexStringLiteral h t, .HexStringLiteral h' t' =>
    HexLiteral.beq h h' && optBeq Identifier.beq t t'
  | .StringLiteral s t, .StringLiteral s' t' =>
    StringLiteral.beq s s' && optBeq Identifier.beq t t'
  | .Variable i, .Variable i' => Identifier.beq i i'
  | .FunctionCall c, .FunctionCall c' => YulFunctionCall.beq c c'
  | .SuffixAccess l e i, .SuffixAccess l' e' i' =>
    Loc.eq l l' && YulExpression.beq e e' && Identifier.beq i i'
  | _, _ => false
termination_by structural x y => x

/-- Derived `PartialEq` for `YulTypedIdentifier`. -/
def YulTypedIdentifier.beq : YulTypedIdentifier → YulTypedIdentifier → Bool
  | .mk l i t, .mk l' i' t' =>
    Loc.eq l l' && Identifier.beq i i' && optBeq Identifier.beq t t'

/-- Derived `PartialEq` for `YulFunctionDefinition`. -/
def YulFunctionDefinition.beq :
    YulFunctionDefinition → YulFunctionDefinition → Bool
  | .mk l i ps rs b, .mk l' i' ps' rs' b' =>
    Loc.eq l l' && Identifier.beq i i' && yulTypedIdsBeq ps ps' &&
      yulTypedIdsBeq rs rs' && YulBlock.beq b b'
termination_by structural x y => x

/-- Derived `PartialEq` for `YulFunctionCall`. -/
def YulFunctionCall.beq : YulFunctionCall → YulFunctionCall → Bool
  | .mk l i args, .mk l' i' args' =>
    Loc.eq l l' && Identifier.beq i i' && yulExprsBeq args args'
termination_by structural x y => x

/-- Derived `PartialEq` for `YulSwitchOptions`. -/
def YulSwitchOptions.beq : YulSwitchOptions → YulSwitchOptions → Bool
  | .Case l e b, .Case l' e' b' =>
    Loc.eq l l' && YulExpression.beq e e' && YulBlock.beq b b'
  | .Default l b, .Default l' b' => Loc.eq l l' && YulBlock.beq b b'
  | _, _ => false
termination_by structural x y => x

/-- Vector equality for `YulStatement`. -/
def yulStmtsBeq : List YulStatement → List YulStatement → Bool
  | [], [] => true
  | a :: as_, b :: bs => YulStatement.beq a b && yulStmtsBeq as_ bs
  | _, _ => false
termination_by structural x y => x

/-- Vector equality for `YulExpression`. -/
def yulExprsBeq : List YulExpression → List YulExpression → Bool
  | [], [] => true
  | a :: as_, b :: bs => YulExpression.beq a b && yulExprsBeq as_ bs
  | _, _ => false
termination_by structural x y => x

/-- Vector equality for `YulTypedIdentifier`. -/
def yulTypedIdsBeq : List YulTypedIdentifier → List YulTypedIdentifier → Bool
  | [], [] => true
  | a :: as_, b :: bs => YulTypedIdentifier.beq a b && yulTypedIdsBeq as_ bs
  | _, _ => false
termination_by structural x y => x

/-- Vector equality for `YulSwitchOptions`. -/
def yulSwitchOptsBeq : List YulSwitchOptions → List YulSwitchOptions → Bool
  | [], [] => true
  | a :: as_, b :: bs => YulSwitchOptions.beq a b && yulSwitchOptsBeq as_ bs
  | _, _ => false
termination_by structural x y => x

/-- Option equality for `YulExpression`. -/
def optYulExprBeq : Option YulExpression → Option YulExpression → Bool
  | none, none => true
  | some a, some b => YulExpression.beq a b
  | _, _ => false

/-- Option equality for `YulSwitchOptions`. -/
def optYulSwitchOptBeq :
    Option YulSwitchOptions → Option YulSwitchOptions → Bool
  | none, none => true
  | some a, some b => YulSwitchOptions.beq a b
  | _, _ => false
termination_by structural x y => x

end

mutual

/-- Derived `PartialEq` for `Type`. -/
def Ty.beq : Ty → Ty → Bool
  | .Address, .Address => true
  | .AddressPayable, .AddressPayable => true
  | .Payable, .Payable => true
  | .Bool, .Bool => true
  | .String, .String => true
  | .Int n, .Int n' => n == n'
  | .Uint n, .Uint n' => n == n'
  | .Bytes n, .Bytes n' => n == n'
  | .Rational, .Rational => true
  | .DynamicBytes, .DynamicBytes => true
  | .Mapping l f t, .Mapping l' f' t' =>
    Loc.eq l l' && Expression.beq f f' && Expression.beq t t'
  | .Function ps attrs rets, .Function ps' attrs' rets' =>
    paramListBeq ps ps' && attrsBeq attrs attrs' && optRetBeq rets rets'
  | _, _ => false
termination_by structural x y => x

/-- Derived `PartialEq` for `Parameter`. -/
def Parameter.beq : Parameter → Parameter → Bool
  | .mk l t s n, .mk l' t' s' n' =>
    Loc.eq l l' && Expression.beq t t' && optBeq StorageLocation.beq s s' &&
      optBeq Identifier.beq n n'
termination_by structural x y => x

/-- Derived `PartialEq` for `VariableDeclaration`. -/
def VariableDeclaration.beq : VariableDeclaration → VariableDeclaration → Bool
  | .mk l t s n, .mk l' t' s' n' =>
    Loc.eq l l' && Expression.beq t t' && optBeq StorageLocation.beq s s' &&
      Identifier.beq n n'
termination_by structural x y => x

/-- Derived `PartialEq` for `NamedArgument`. -/
def NamedArgument.beq : NamedArgument → NamedArgument → Bool
  | .mk l n e, .mk l' n' e' =>
    Loc.eq l l' && Identifier.beq n n' && Expression.beq e e'
termination_by structural x y => x

/-- Derived `PartialEq` for `Base`. -/
def Base.beq : Base → Base → Bool
  | .mk l n a, .mk l' n' a' =>
    Loc.eq l l' && IdentifierPath.beq n n' && optExprListBeq a a'
termination_by structural x y => x

/-- Derived `PartialEq` for `FunctionAttribute`. -/
def FunctionAttribute.beq : FunctionAttribute → FunctionAttribute → Bool
  | .Mutability m, .Mutability m' => Mutability.beq m m'
  | .Visibility v, .Visibility v' => Visibility.beq v v'
  | .Virtual l, .Virtual l' => Loc.eq l l'
  | .Immutable l, .Immutable l' => Loc.eq l l'
  | .Override l ids, .Override l' ids' =>
    Loc.eq l l' && listBeq IdentifierPath.beq ids ids'
  | .BaseOrModifier l b, .BaseOrModifier l' b' => Loc.eq l l' && Base.beq b b'
  | _, _ => false
termination_by structural x y => x

/-- Derived `PartialEq` for `Expression`. -/
def Expression.beq : Expression → Expression → Bool
  | .PostIncrement l e, .PostIncrement l' e' => Loc.eq l l' && Expression.beq e e'
  | .PostDecrement l e, .PostDecrement l' e' => Loc.eq l l' && Expression.beq e e'
  | .New l e, .New l' e' => Loc.eq l l' && Expression.beq e e'
  | .ArraySubscript l e i, .ArraySubscript l' e' i' =>
    Loc.eq l l' && Expression.beq e e' && optExprBeq i i'
  | .ArraySlice l e a b, .ArraySlice l' e' a' b' =>
    Loc.eq l l' && Expression.beq e e' && optExprBeq a a' && optExprBeq b b'
  | .Parenthesis l e, .Parenthesis l' e' => Loc.eq l l' && Expression.beq e e'
  | .MemberAccess l e f, .MemberAccess l' e' f' =>
    Loc.eq l l' && Expression.beq e e' && Identifier.beq f f'
  | .FunctionCall l f args, .FunctionCall l' f' args' =>
    Loc.eq l l' && Expression.beq f f' && exprsBeq args args'
  | .FunctionCallBlock l b s, .FunctionCallBlock l' b' s' =>
    Loc.eq l l' && Expression.beq b b' && Statement.beq s s'
  | .NamedFunctionCall l f args, .NamedFunctionCall l' f' args' =>
    Loc.eq l l' && Expression.beq f f' && namedArgsBeq args args'
  | .Not l e, .Not l' e' => Loc.eq l l' && Expression.beq e e'
  | .Complement l e, .Complement l' e' => Loc.eq l l' && Expression.beq e e'
  | .Delete l e, .Delete l' e' => Loc.eq l l' && Expression.beq e e'
  | .PreIncrement l e, .PreIncrement l' e' => Loc.eq l l' && Expression.beq e e'
  | .PreDecrement l e, .PreDecrement l' e' => Loc.eq l l' && Expression.beq e e'
  | .UnaryPlus l e, .UnaryPlus l' e' => Loc.eq l l' && Expression.beq e e'
  | .UnaryMinus l e, .UnaryMinus l' e' => Loc.eq l l' && Expression.beq e e'
  | .Power l a b, .Power l' a' b' =>
    Loc.eq l l' && Expression.beq a a' && Expression.beq b b'
  | .Multiply l a b, .Multiply l' a' b' =>
    Loc.eq l l' && Expression.beq a a' && Expression.beq b b'
  | .Divide l a b, .Divide l' a' b' =>
    Loc.eq l l' && Expression.beq a a' && Expression.beq b b'
  | .Modulo l a b, .Modulo l' a' b' =>
    Loc.eq l l' && Expression.beq a a' && Expression.beq b b'
  | .Add l a b, .Add l' a' b' =>
    Loc.eq l l' && Expression.beq a a' && Expression.beq b b'
  | .Subtract l a b, .Subtract l' a' b' =>
    Loc.eq l l' && Expression.beq a a' && Expression.beq b b'
  | .ShiftLeft l a b, .ShiftLeft l' a' b' =>
    Loc.eq l l' && Expression.beq a a' && Expression.beq b b'
  | .ShiftRight l a b, .ShiftRight l' a' b' =>
    Loc.eq l l' && Expression.beq a a' && Expression.beq b b'
  | .BitwiseAnd l a b, .BitwiseAnd l' a' b' =>
    Loc.eq l l' && Expression.beq a a' && Expression.beq b b'
  | .BitwiseXor l a b, .BitwiseXor l' a' b' =>
    Loc.eq l l' && Expression.beq a a' && Expression.beq b b'
  | .BitwiseOr l a b, .BitwiseOr l' a' b' =>
    Loc.eq l l' && Expression.beq a a' && Expression.beq b b'
  | .Less l a b, .Less l' a' b' =>
    Loc.eq l l' && Expression.beq a a' && Expression.beq b b'
  | .More l a b, .More l' a' b' =>
    Loc.eq l l' && Expression.beq a a' && Expression.beq b b'
  | .LessEqual l a b, .LessEqual l' a' b' =>
    Loc.eq l l' && Expression.beq a a' && Expression.beq b b'
  | .MoreEqual l a b, .MoreEqual l' a' b' =>
    Loc.eq l l' && Expression.beq a a' && Expression.beq b b'
  | .Equal l a b, .Equal l' a' b' =>
    Loc.eq l l' && Expression.beq a a' && Expression.beq b b'
  | .NotEqual l a b, .NotEqual l' a' b' =>
    Loc.eq l l' && Expression.beq a a' && Expression.beq b b'
  | .And l a b, .And l' a' b' =>
    Loc.eq l l' && Expression.beq a a' && Expression.beq b b'
  | .Or l a b, .Or l' a' b' =>
    Loc.eq l l' && Expression.beq a a' && Expression.beq b b'
  | .Ternary l c a b, .Ternary l' c' a' b' =>
    Loc.eq l l' && Expression.beq c c' && Expression.beq a a' &&
      Expression.beq b b'
  | .Assign l a b, .Assign l' a' b' =>
    Loc.eq l l' && Expression.beq a a' && Expression.beq b b'
  | .AssignOr l a b, .AssignOr l' a' b' =>
    Loc.eq l l' && Expression.beq a a' && Expression.beq b b'
  | .AssignAnd l a b, .AssignAnd l' a' b' =>
    Loc.eq l l' && Expression.beq a a' && Expression.beq b b'
  | .AssignXor l a b, .AssignXor l' a' b' =>
    Loc.eq l l' && Expression.beq a a' && Expression.beq b b'
  | .AssignShiftLeft l a b, .AssignShiftLeft l' a' b' =>
    Loc.eq l l' && Expression.beq a a' && Expression.beq b b'
  | .AssignShiftRight l a b, .AssignShiftRight l' a' b' =>
    Loc.eq l l' && Expression.beq a a' && Expression.beq b b'
  | .AssignAdd l a b, .AssignAdd l' a' b' =>
    Loc.eq l l' && Expression.beq a a' && Expression.beq b b'
  | .AssignSubtract l a b, .AssignSubtract l' a' b' =>
    Loc.eq l l' && Expression.beq a a' && Expression.beq b b'
  | .AssignMultiply l a b, .AssignMultiply l' a' b' =>
    Loc.eq l l' && Expression.beq a a' && Expression.beq b b'
  | .AssignDivide l a b, .AssignDivide l' a' b' =>
    Loc.eq l l' && Expression.beq a a' && Expression.beq b b'
  | .AssignModulo l a b, .AssignModulo l' a' b' =>
    Loc.eq l l' && Expression.beq a a' && Expression.beq b b'
  | .BoolLiteral l b, .BoolLiteral l' b' => Loc.eq l l' && b == b'
  | .NumberLiteral l n e, .NumberLiteral l' n' e' =>
    Loc.eq l l' && n == n' && e == e'
  | .RationalNumberLiteral l i f e, .RationalNumberLiteral l' i' f' e' =>
    Loc.eq l l' && i == i' && f == f' && e == e'
  | .HexNumberLiteral l s, .HexNumberLiteral l' s' => Loc.eq l l' && s == s'
  | .StringLiteral v, .StringLiteral v' => listBeq StringLiteral.beq v v'
  | .«Type» l t, .«Type» l' t' => Loc.eq l l' && Ty.beq t t'
  | .HexLiteral v, .HexLiteral v' => listBeq HexLiteral.beq v v'
  | .AddressLiteral l s, .AddressLiteral l' s' => Loc.eq l l' && s == s'
  | .Variable i, .Variable i' => Identifier.beq i i'
  | .List l ps, .List l' ps' => Loc.eq l l' && paramListBeq ps ps'
  | .ArrayLiteral l es, .ArrayLiteral l' es' => Loc.eq l l' && exprsBeq es es'
  | .Unit l e u, .Unit l' e' u' =>
    Loc.eq l l' && Expression.beq e e' && Unit.beq u u'
  | .This l, .This l' => Loc.eq l l'
  | _, _ => false
termination_by structural x y => x

/-- Derived `PartialEq` for `Statement`. -/
def Statement.beq : Statement → Statement → Bool
  | .Block l u ss, .Block l' u' ss' =>
    Loc.eq l l' && u == u' && stmtsBeq ss ss'
  | .Assembly l d f b, .Assembly l' d' f' b' =>
    Loc.eq l l' && optBeq StringLiteral.beq d d' &&
      optBeq (listBeq StringLiteral.beq) f f' && YulBlock.beq b b'
  | .Args l args, .Args l' args' => Loc.eq l l' && namedArgsBeq args args'
  | .If l c t f, .If l' c' t' f' =>
    Loc.eq l l' && Expression.beq c c' && Statement.beq t t' &&
      optStmtBeq f f'
  | .While l c b, .While l' c' b' =>
    Loc.eq l l' && Expression.beq c c' && Statement.beq b b'
  | .Expression l e, .Expression l' e' => Loc.eq l l' && Expression.beq e e'
  | .VariableDefinition l d i, .VariableDefinition l' d' i' =>
    Loc.eq l l' && VariableDeclaration.beq d d' && optExprBeq i i'
  | .For l i c p b, .For l' i' c' p' b' =>
    Loc.eq l l' && optStmtBeq i i' && optExprBeq c c' && optStmtBeq p p' &&
      optStmtBeq b b'
  | .DoWhile l b c, .DoWhile l' b' c' =>
    Loc.eq l l' && Statement.beq b b' && Expression.beq c c'
  | .Continue l, .Continue l' => Loc.eq l l'
  | .Break l, .Break l' => Loc.eq l l'
  | .Return l e, .Return l' e' => Loc.eq l l' && optExprBeq e e'
  | .Revert l p args, .Revert l' p' args' =>
    Loc.eq l l' && optBeq IdentifierPath.beq p p' && exprsBeq args args'
  | .RevertNamedArgs l p args, .RevertNamedArgs l' p' args' =>
    Loc.eq l l' && optBeq IdentifierPath.beq p p' && namedArgsBeq args args'
  | .Emit l e, .Emit l' e' => Loc.eq l l' && Expression.beq e e'
  | .Try l e ok cs, .Try l' e' ok' cs' =>
    Loc.eq l l' && Expression.beq e e' && optOkBeq ok ok' &&
      catchesBeq cs cs'
  | _, _ => false
termination_by structural x y => x

/-- Derived `PartialEq` for `CatchClause`. -/
def CatchClause.beq : CatchClause → CatchClause → Bool
  | .Simple l p s, .Simple l' p' s' =>
    Loc.eq l l' && optParamBeq p p' && Statement.beq s s'
  | .Named l i p s, .Named l' i' p' s' =>
    Loc.eq l l' && Identifier.beq i i' && Parameter.beq p p' &&
      Statement.beq s s'
  | _, _ => false
termination_by structural x y => x

/-- Vector equality for `Expression`. -/
def exprsBeq : List Expression → List Expression → Bool
  | [], [] => true
  | a :: as_, b :: bs => Expression.beq a b && exprsBeq as_ bs
  | _, _ => false
termination_by structural x y => x

/-- Option equality for `Expression`. -/
def optExprBeq : Option Expression → Option Expression → Bool
  | none, none => true
  | some a, some b => Expression.beq a b
  | _, _ => false
termination_by structural x y => x

/-- Option equality for `Vec<Expression>` (base contract args). -/
def optExprListBeq : Option (List Expression) → Option (List Expression) → Bool
  | none, none => true
  | some a, some b => exprsBeq a b
  | _, _ => false
termination_by structural x y => x

/-- Option equality for `Parameter`. -/
def optParamBeq : Option Parameter → Option Parameter → Bool
  | none, none => true
  | some a, some b => Parameter.beq a b
  | _, _ => false
termination_by structural x y => x

/-- Equality for one `ParameterList` slot `(Loc, Option<Parameter>)`. -/
def paramSlotBeq : Loc × Option Parameter → Loc × Option Parameter → Bool
  | (l, p), (l', p') => Loc.eq l l' && optParamBeq p p'
termination_by structural x y => x

/-- Vector equality for `ParameterList`. -/
def paramListBeq :
    List (Loc × Option Parameter) → List (Loc × Option Parameter) → Bool
  | [], [] => true
  | a :: as_, b :: bs => paramSlotBeq a b && paramListBeq as_ bs
  | _, _ => false
termination_by structural x y => x

/-- Vector equality for `FunctionAttribute`. -/
def attrsBeq : List FunctionAttribute → List FunctionAttribute → Bool
  | [], [] => true
  | a :: as_, b :: bs => FunctionAttribute.beq a b && attrsBeq as_ bs
  | _, _ => false
termination_by structural x y => x

/-- Option equality for the `Type::Function` returns component. -/
def optRetBeq :
    Option (List (Loc × Option Parameter) × List FunctionAttribute) →
      Option (List (Loc × Option Parameter) × List FunctionAttribute) → Bool
  | none, none => true
  | some (ps, attrs), some (ps', attrs') =>
    paramListBeq ps ps' && attrsBeq attrs attrs'
  | _, _ => false
termination_by structural x y => x

/-- Vector equality for `NamedArgument`. -/
def namedArgsBeq : List NamedArgument → List NamedArgument → Bool
  | [], [] => true
  | a :: as_, b :: bs => NamedArgument.beq a b && namedArgsBeq as_ bs
  | _, _ => false
termination_by structural x y => x

/-- Vector equality for `Statement`. -/
def stmtsBeq : List Statement → List Statement → Bool
  | [], [] => true
  | a :: as_, b :: bs => Statement.beq a b && stmtsBeq as_ bs
  | _, _ => false
termination_by structural x y => x

/-- Option equality for `Statement`. -/
def optStmtBeq : Option Statement → Option Statement → Bool
  | none, none => true
  | some a, some b => Statement.beq a b
  | _, _ => false
termination_by structural x y => x

/-- Option equality for the `Try` success-capture component. -/
def optOkBeq :
    Option (List (Loc × Option Parameter) × Statement) →
      Option (List (Loc × Option Parameter) × Statement) → Bool
  | none, none => true
  | some (ps, s), some (ps', s') => paramListBeq ps ps' && Statement.beq s s'
  | _, _ => false
termination_by structural x y => x

/-- Vector equality for `CatchClause`. -/
def catchesBeq : List CatchClause → List CatchClause → Bool
  | [], [] => true
  | a :: as_, b :: bs => CatchClause.beq a b && catchesBeq as_ bs
  | _, _ => false
termination_by structural x y => x

end

/-!
The printer (`Docable::to_doc`). Implementations that can `panic!`
(the unsupported variants, assertion failures, `unwrap` on missing
bodies) are embedded as `Option Doc`-returning functions named
`to_doc?`; `none` models the abort, and it propagates from sub-nodes
exactly as a Rust panic would unwind. Implementations that cannot
abort are plain `Doc`-valued. Appends are written left-associated, as
the Rust builder chains are.
-/

/-- `Docable for Identifier`: text of its display form. -/
def Identifier.to_doc (i : Identifier) : Doc :=
  .text i.toStr

/-- `Docable for IdentifierPath`: text of its display form. -/
def IdentifierPath.to_doc (p : IdentifierPath) : Doc :=
  .text p.toStr

/-- `Docable for StorageLocation`. -/
def StorageLocation.to_doc (s : StorageLocation) : Doc :=
  .text s.toStr

/-- `Docable for Mutability`. -/
def Mutability.to_doc (m : Mutability) : Doc :=
  .text m.toStr

/-- `Docable for Visibility`. -/
def Visibility.to_doc (v : Visibility) : Doc :=
  .text v.toStr

/-- `Docable for FunctionTy`. -/
def FunctionTy.to_doc (t : FunctionTy) : Doc :=
  .text t.toStr

/-- `Docable for ContractTy` (unused by `ContractDefinition::to_doc`,
which hardcodes the `contract` keyword). -/
def ContractTy.to_doc (t : ContractTy) : Doc :=
  .text t.toStr

/-- `Docable for StringLiteral`: asserts the literal is not a unicode
literal, then wraps the raw contents in double quotes. -/
def StringLiteral.to_doc? (s : StringLiteral) : Option Doc :=
  if s.unicode then none
  else some (((Doc.text "\"").append (Doc.text s.string)).append (Doc.text "\""))

/-- Document conversion of a string-literal sequence. -/
def strLitsDocs? : List StringLiteral → Option (List Doc)
  | [] => some []
  | s :: rest =>
    match s.to_doc?, strLitsDocs? rest with
    | some d, some ds => some (d :: ds)
    | _, _ => none

/-- pt.rs `param_list_to_doc`, applied to the per-slot documents. -/
def param_list_doc (ds : List Doc) : Doc :=
  ((Doc.text "(").append
      (Doc.intersperse ds ((Doc.text ",").append Doc.space))).append
    (Doc.text ")")

/-- `Expression::bin_op_doc` on the already-converted operand
documents: left, space, operator, space, right. -/
def bin_op_doc (da : Doc) (op : String) (db : Doc) : Doc :=
  (((da.append Doc.space).append (Doc.text op)).append Doc.space).append db

mutual

/-- `Docable for Type`: elementary types and mappings print;
`Rational` and `Function` fall into the panicking catch-all. -/
def Ty.to_doc? : Ty → Option Doc
  | .Address => some (.text "address")
  | .AddressPayable => some (.text "address payable")
  | .Payable => some (.text "payable")
  | .Bool => some (.text "bool")
  | .String => some (.text "string")
  | .Int n => some ((Doc.text "int").append (Doc.text (toString n)))
  | .Uint n => some ((Doc.text "uint").append (Doc.text (toString n)))
  | .Bytes n => some ((Doc.text "bytes").append (Doc.text (toString n)))
  | .DynamicBytes => some (.text "bytes")
  | .Mapping _ f t =>
    match Expression.to_doc? f, Expression.to_doc? t with
    | some df, some dt =>
      some ((((Doc.text "mapping(").append df).append
          ((Doc.text " => ").append dt)).append (Doc.text ")"))
    | _, _ => none
  | .Rational => none
  | .Function _ _ _ => none

/-- `Docable for Expression`. The variants absent from the match
(`Complement`, `Delete`, `UnaryPlus`, `UnaryMinus`, `Power`, the
bitwise binaries, `Ternary`, the bitwise/shift compound assignments,
`RationalNumberLiteral`, `HexNumberLiteral`, `HexLiteral`,
`AddressLiteral`, `Unit`, `NamedFunctionCall`) hit the panicking
catch-all, and `ArraySlice` has an explicit panic arm. -/
def Expression.to_doc? : Expression → Option Doc
  | .PostIncrement _ e =>
    match Expression.to_doc? e with
    | some d => some (d.append (Doc.text "++"))
    | none => none
  | .PostDecrement _ e =>
    match Expression.to_doc? e with
    | some d => some (d.append (Doc.text "--"))
    | none => none
  | .New _ e =>
    match Expression.to_doc? e with
    | some d => some ((Doc.text "new ").append d)
    | none => none
  | .ArraySubscript _ e idx =>
    match Expression.to_doc? e, optExprDoc? idx with
    | some d, some di =>
      some (((d.append (Doc.text "[")).append di).append (Doc.text "]"))
    | _, _ => none
  | .ArraySlice _ _ _ _ => none
  | .Parenthesis _ e =>
    match Expression.to_doc? e with
    | some d => some (((Doc.text "(").append d).append (Doc.text ")"))
    | none => none
  | .FunctionCall _ fn args =>
    match Expression.to_doc? fn, exprsDocs? args with
    | some df, some ds => some (df.append (paren_list_to_doc ds))
    | _, _ => none
  | .MemberAccess _ e f =>
    match Expression.to_doc? e with
    | some d => some ((d.append (Doc.text ".")).append f.to_doc)
    | none => none
  | .Not _ e =>
    match Expression.to_doc? e with
    | some d => some ((Doc.text "!").append d)
    | none => none
  | .PreIncrement _ e =>
    match Expression.to_doc? e with
    | some d => some ((Doc.text "++").append d)
    | none => none
  | .PreDecrement _ e =>
    match Expression.to_doc? e with
    | some d => some ((Doc.text "--").append d)
    | none => none
  | .Assign _ a b =>
    match Expression.to_doc? a, Expression.to_doc? b with
    | some da, some db => some (bin_op_doc da "=" db)
    | _, _ => none
  | .AssignAdd _ a b =>
    match Expression.to_doc? a, Expression.to_doc? b with
    | some da, some db => some (bin_op_doc da "+=" db)
    | _, _ => none
  | .AssignSubtract _ a b =>
    match Expression.to_doc? a, Expression.to_doc? b with
    | some da, some db => some (bin_op_doc da "-=" db)
    | _, _ => none
  | .AssignMultiply _ a b =>
    match Expression.to_doc? a, Expression.to_doc? b with
    | some da, some db => some (bin_op_doc da "*=" db)
    | _, _ => none
  | .AssignDivide _ a b =>
    match Expression.to_doc? a, Expression.to_doc? b with
    | some da, some db => some (bin_op_doc da "/=" db)
    | _, _ => none
  | .AssignModulo _ a b =>
    match Expression.to_doc? a, Expression.to_doc? b with
    | some da, some db => some (bin_op_doc da "%=" db)
    | _, _ => none
  | .Multiply _ a b =>
    match Expression.to_doc? a, Expression.to_doc? b with
    | some da, some db => some (bin_op_doc da "*" db)
    | _, _ => none
  | .Divide _ a b =>
    match Expression.to_doc? a, Expression.to_doc? b with
    | some da, some db => some (bin_op_doc da "/" db)
    | _, _ => none
  | .Modulo _ a b =>
    match Expression.to_doc? a, Expression.to_doc? b with
    | some da, some db => some (bin_op_doc da "%" db)
    | _, _ => none
  | .Add _ a b =>
    match Expression.to_doc? a, Expression.to_doc? b with
    | some da, some db => some (bin_op_doc da "+" db)
    | _, _ => none
  | .Subtract _ a b =>
    match Expression.to_doc? a, Expression.to_doc? b with
    | some da, some db => some (bin_op_doc da "-" db)
    | _, _ => none
  | .ShiftLeft _ a b =>
    match Expression.to_doc? a, Expression.to_doc? b with
    | some da, some db => some (bin_op_doc da "<<" db)
    | _, _ => none
  | .ShiftRight _ a b =>
    match Expression.to_doc? a, Expression.to_doc? b with
    | some da, some db => some (bin_op_doc da ">>" db)
    | _, _ => none
  | .Less _ a b =>
    match Expression.to_doc? a, Expression.to_doc? b with
    | some da, some db => some (bin_op_doc da "<" db)
    | _, _ => none
  | .More _ a b =>
    match Expression.to_doc? a, Expression.to_doc? b with
    | some da, some db => some (bin_op_doc da ">" db)
    | _, _ => none
  | .LessEqual _ a b =>
    match Expression.to_doc? a, Expression.to_doc? b with
    | some da, some db => some (bin_op_doc da "<=" db)
    | _, _ => none
  | .MoreEqual _ a b =>
    match Expression.to_doc? a, Expression.to_doc? b with
    | some da, some db => some (bin_op_doc da ">=" db)
    | _, _ => none
  | .Equal _ a b =>
    match Expression.to_doc? a, Expression.to_doc? b with
    | some da, some db => some (bin_op_doc da "==" db)
    | _, _ => none
  | .NotEqual _ a b =>
    match Expression.to_doc? a, Expression.to_doc? b with
    | some da, some db => some (bin_op_doc da "!=" db)
    | _, _ => none
  | .And _ a b =>
    match Expression.to_doc? a, Expression.to_doc? b with
    | some da, some db => some (bin_op_doc da "&&" db)
    | _, _ => none
  | .Or _ a b =>
    match Expression.to_doc? a, Expression.to_doc? b with
    | some da, some db => some (bin_op_doc da "||" db)
    | _, _ => none
  | .NumberLiteral _ num _ => some (.text num)
  | .ArrayLiteral _ es =>
    match exprsDocs? es with
    | some ds =>
      some (((Doc.text "[").append (list_to_doc ds)).append (Doc.text "]"))
    | none => none
  | .«Type» _ ty => Ty.to_doc? ty
  | .Variable id => some id.to_doc
  | .This _ => some (.text "this")
  | .List _ ps =>
    match paramSlotsDocs? ps with
    | some ds => some (param_list_doc ds)
    | none => none
  | .StringLiteral lits =>
    match strLitsDocs? lits with
    | some ds => some (list_to_doc ds)
    | none => none
  | .BoolLiteral _ b => some (.text (toString b))
  | .FunctionCallBlock _ base block =>
    match Expression.to_doc? base, Statement.to_doc? block with
    | some db, some ds =>
      some (((db.append (Doc.text "\x7b")).append ds).append (Doc.text "\x7d"))
    | _, _ => none
  | _ => none

/-- `Docable for Statement`. `Assembly`, `RevertNamedArgs` and `Try`
have explicit panic arms; `For`, `DoWhile` and `Args`-less variants
absent from the match hit the panicking catch-all (`For` and `DoWhile`
are the only ones). -/
def Statement.to_doc? : Statement → Option Doc
  | .Block _ _ statements =>
    match stmtsDocs? statements with
    | some ds =>
      some ((((Doc.text "\x7b").append
          (Doc.intersperse
            (ds.map fun d => Doc.nest 4 (Doc.hardline.append d))
            Doc.nil)).append Doc.hardline).append (Doc.text "\x7d"))
    | none => none
  | .Assembly _ _ _ _ => none
  | .Args _ args =>
    match namedArgsDocs? args with
    | some ds => some (spaced_list_to_doc ds)
    | none => none
  | .If _ cond tb fb =>
    match Expression.to_doc? cond, Statement.to_doc? tb, optStmtDoc? fb with
    | some dc, some dt, some df =>
      some ((((((Doc.text "if (").append dc).append (Doc.text ")")).append
          Doc.space).append dt).append
        (if fb.isSome then (Doc.text " else ").append df else Doc.nil))
    | _, _, _ => none
  | .While _ cond body =>
    match Expression.to_doc? cond, Statement.to_doc? body with
    | some dc, some db =>
      some (((((Doc.text "while (").append dc).append (Doc.text ")")).append
          Doc.space).append db)
    | _, _ => none
  | .Expression _ e =>
    match Expression.to_doc? e with
    | some d => some (d.append (Doc.text ";"))
    | none => none
  | .VariableDefinition _ decl none =>
    match VariableDeclaration.to_doc? decl with
    | some d => some (d.append (Doc.text ";"))
    | none => none
  | .VariableDefinition _ decl (some e) =>
    match VariableDeclaration.to_doc? decl, Expression.to_doc? e with
    | some dd, some de =>
      some (((dd.append (Doc.text " = ")).append de).append (Doc.text ";"))
    | _, _ => none
  | .Continue _ => some (.text "continue;")
  | .Break _ => some (.text "break;")
  | .Return _ (some e) =>
    match Expression.to_doc? e with
    | some d => some (((Doc.text "return ").append d).append (Doc.text ";"))
    | none => none
  | .Return _ none => some (.text "return;")
  | .Revert _ id exprs =>
    match exprsDocs? exprs with
    | some ds =>
      some ((((Doc.text "revert ").append
          (option_to_doc (id.map IdentifierPath.to_doc))).append
        (paren_list_to_doc ds)).append (Doc.text ";"))
    | none => none
  | .RevertNamedArgs _ _ _ => none
  | .Emit _ e =>
    match Expression.to_doc? e with
    | some d => some (((Doc.text "emit ").append d).append (Doc.text ";"))
    | none => none
  | .Try _ _ _ _ => none
  | _ => none

/-- `Docable for Parameter`: type, optional storage, optional name. -/
def Parameter.to_doc? : Parameter → Option Doc
  | .mk _ ty storage name =>
    match Expression.to_doc? ty with
    | some d =>
      some ((((d.append (space_if storage.isSome)).append
          (option_to_doc (storage.map StorageLocation.to_doc))).append
        (space_if name.isSome)).append
          (option_to_doc (name.map Identifier.to_doc)))
    | none => none

/-- `Docable for VariableDeclaration`: type, space, optional storage
with trailing space, name. -/
def VariableDeclaration.to_doc? : VariableDeclaration → Option Doc
  | .mk _ ty storage name =>
    match Expression.to_doc? ty with
    | some d =>
      some (((d.append Doc.space).append
          (option_space_to_doc (storage.map StorageLocation.to_doc))).append
        name.to_doc)
    | none => none

/-- `Docable for NamedArgument`. -/
def NamedArgument.to_doc? : NamedArgument → Option Doc
  | .mk _ name expr =>
    match Expression.to_doc? expr with
    | some d => some ((name.to_doc.append (Doc.text ": ")).append d)
    | none => none

/-- `Docable for Base`: dotted path, then the optional parenthesised
argument list. -/
def Base.to_doc? : Base → Option Doc
  | .mk _ name args =>
    match args with
    | some es =>
      match exprsDocs? es with
      | some ds => some (name.to_doc.append (paren_list_to_doc ds))
      | none => none
    | none => some (name.to_doc.append Doc.nil)

/-- `Docable for FunctionAttribute`: every variant prints, including
`Override`. -/
def FunctionAttribute.to_doc? : FunctionAttribute → Option Doc
  | .Virtual _ => some (.text "virtual")
  | .Immutable _ => some (.text "immutable")
  | .Mutability m => some m.to_doc
  | .Visibility v => some v.to_doc
  | .Override _ ids =>
    some ((((Doc.text "override ").append
        (if !ids.isEmpty then Doc.text "(" else Doc.nil)).append
      (list_to_doc (ids.map IdentifierPath.to_doc))).append
        (if !ids.isEmpty then Doc.text ")" else Doc.nil))
  | .BaseOrModifier _ base => Base.to_doc? base

/-- Document conversion of an expression vector. -/
def exprsDocs? : List Expression → Option (List Doc)
  | [] => some []
  | e :: rest =>
    match Expression.to_doc? e, exprsDocs? rest with
    | some d, some ds => some (d :: ds)
    | _, _ => none

/-- `option_box_to_doc` over an optional expression: `None` prints as
the empty document. -/
def optExprDoc? : Option Expression → Option Doc
  | none => some Doc.nil
  | some e => Expression.to_doc? e

/-- `option_box_to_doc` over an optional statement: `None` prints as
the empty document. -/
def optStmtDoc? : Option Statement → Option Doc
  | none => some Doc.nil
  | some s => Statement.to_doc? s

/-- Document conversion of a named-argument vector. -/
def namedArgsDocs? : List NamedArgument → Option (List Doc)
  | [] => some []
  | a :: rest =>
    match NamedArgument.to_doc? a, namedArgsDocs? rest with
    | some d, some ds => some (d :: ds)
    | _, _ => none

/-- Document conversion of one `ParameterList` slot: a missing
parameter prints as the empty document (`option_to_doc`). -/
def paramSlotDoc? : Loc × Option Parameter → Option Doc
  | (_, none) => some Doc.nil
  | (_, some p) => Parameter.to_doc? p

/-- Document conversion of a `ParameterList`. -/
def paramSlotsDocs? : List (Loc × Option Parameter) → Option (List Doc)
  | [] => some []
  | slot :: rest =>
    match paramSlotDoc? slot, paramSlotsDocs? rest with
    | some d, some ds => some (d :: ds)
    | _, _ => none

/-- Document conversion of a function-attribute vector. -/
def attrsDocs? : List FunctionAttribute → Option (List Doc)
  | [] => some []
  | a :: rest =>
    match FunctionAttribute.to_doc? a, attrsDocs? rest with
    | some d, some ds => some (d :: ds)
    | _, _ => none

/-- Document conversion of a statement vector. -/
def stmtsDocs? : List Statement → Option (List Doc)
  | [] => some []
  | s :: rest =>
    match Statement.to_doc? s, stmtsDocs? rest with
    | some d, some ds => some (d :: ds)
    | _, _ => none

end

/-- `Docable for VariableAttribute`: `Override` hits the panicking
catch-all. -/
def VariableAttribute.to_doc? : VariableAttribute → Option Doc
  | .Visibility v => some v.to_doc
  | .Constant _ => some (.text "constant")
  | .Immutable _ => some (.text "immutable")
  | .Override _ _ => none

/-- Document conversion of a variable-attribute vector. -/
def varAttrsDocs? : List VariableAttribute → Option (List Doc)
  | [] => some []
  | a :: rest =>
    match a.to_doc?, varAttrsDocs? rest with
    | some d, some ds => some (d :: ds)
    | _, _ => none

/-- `Docable for EventParameter`: type, space, optional `indexed `,
optional name. -/
def EventParameter.to_doc? (p : EventParameter) : Option Doc :=
  match Expression.to_doc? p.ty with
  | some d =>
    some (((d.append Doc.space).append
        (if p.indexed then Doc.text "indexed " else Doc.nil)).append
      (option_to_doc (p.name.map Identifier.to_doc)))
  | none => none

/-- Document conversion of an event-parameter vector. -/
def eventParamsDocs? : List EventParameter → Option (List Doc)
  | [] => some []
  | p :: rest =>
    match p.to_doc?, eventParamsDocs? rest with
    | some d, some ds => some (d :: ds)
    | _, _ => none

/-- `Docable for EventDefinition`: keyword, name, parenthesised
fields. -/
def EventDefinition.to_doc? (e : EventDefinition) : Option Doc :=
  match eventParamsDocs? e.fields with
  | some ds =>
    some ((((Doc.text "event").append Doc.space).append
        (e.name.to_doc.append Doc.space)).append (paren_list_to_doc ds))
  | none => none

/-- `Docable for ErrorParameter`. -/
def ErrorParameter.to_doc? (p : ErrorParameter) : Option Doc :=
  match Expression.to_doc? p.ty with
  | some d =>
    some ((d.append Doc.space).append
      (option_to_doc (p.name.map Identifier.to_doc)))
  | none => none

/-- Document conversion of an error-parameter vector. -/
def errorParamsDocs? : List ErrorParameter → Option (List Doc)
  | [] => some []
  | p :: rest =>
    match p.to_doc?, errorParamsDocs? rest with
    | some d, some ds => some (d :: ds)
    | _, _ => none

/-- `Docable for ErrorDefinition`: keyword, name, parenthesised
fields (no space before the parenthesis). -/
def ErrorDefinition.to_doc? (e : ErrorDefinition) : Option Doc :=
  match errorParamsDocs? e.fields with
  | some ds =>
    some ((((Doc.text "error").append Doc.space).append
        e.name.to_doc).append (paren_list_to_doc ds))
  | none => none

/-- `Docable for EnumDefinition`: total, the values are plain
identifiers. -/
def EnumDefinition.to_doc (e : EnumDefinition) : Doc :=
  (((((Doc.text "enum").append Doc.space).append e.name.to_doc).append
      Doc.space).append (Doc.text "\x7b")).append
    ((indent_list_to_doc (e.values.map Identifier.to_doc)).append
      (Doc.text "\x7d"))

/-- Document conversion of struct fields (each on its own indented
line, terminated by a semicolon). -/
def structFieldsDocs? : List VariableDeclaration → Option (List Doc)
  | [] => some []
  | f :: rest =>
    match VariableDeclaration.to_doc? f, structFieldsDocs? rest with
    | some d, some ds => some (d :: ds)
    | _, _ => none

/-- `Docable for StructDefinition`. -/
def StructDefinition.to_doc? (s : StructDefinition) : Option Doc :=
  match structFieldsDocs? s.fields with
  | some ds =>
    some (((((Doc.text "struct ").append s.name.to_doc).append
        (Doc.text " \x7b")).append
      ((Doc.intersperse
          (ds.map fun d =>
            Doc.nest 4 (Doc.hardline.append (d.append (Doc.text ";"))))
          Doc.nil).append Doc.hardline)).append (Doc.text "\x7d"))
  | none => none

/-- `Docable for VariableDefinition`. -/
def VariableDefinition.to_doc? (v : VariableDefinition) : Option Doc :=
  match Expression.to_doc? v.ty, varAttrsDocs? v.attrs,
      (match v.initializer with
       | some e => Expression.to_doc? e
       | none => some Doc.nil) with
  | some dty, some dattrs, some dinit =>
    some (((((dty.append
        (if v.attrs.isEmpty then Doc.nil
         else Doc.space.append (spaced_list_to_doc dattrs))).append
      Doc.space).append v.name.to_doc).append
        (if v.initializer.isSome then Doc.text " = " else Doc.nil)).append
      dinit)
  | _, _, _ => none

/-- `Docable for TypeDefinition`. -/
def TypeDefinition.to_doc? (t : TypeDefinition) : Option Doc :=
  match Expression.to_doc? t.ty with
  | some d =>
    some ((((Doc.text "type ").append t.name.to_doc).append
        (Doc.text " is ")).append d)
  | none => none

/-- `Docable for UsingList`: a library path, or a braced function
list. -/
def UsingList.to_doc : UsingList → Doc
  | .Library ip => ip.to_doc
  | .Functions ips =>
    ((Doc.text "\x7b").append
        (list_to_doc (ips.map IdentifierPath.to_doc))).append (Doc.text "\x7d")

/-- `Docable for Using`: asserts `global` absent and `ty` present. -/
def Using.to_doc? (u : Using) : Option Doc :=
  match u.global, u.ty with
  | none, some t =>
    match Expression.to_doc? t with
    | some d =>
      some ((((Doc.text "using ").append u.list.to_doc).append
          (Doc.text " for ")).append d)
    | none => none
  | _, _ => none

/-- `Docable for FunctionDefinition`: asserts the definition is named
or is a constructor; `unwrap`s the body (a missing body panics). -/
def FunctionDefinition.to_doc? (f : FunctionDefinition) : Option Doc :=
  if !(f.name.isSome || FunctionTy.beq f.ty .Constructor) then none
  else
    match f.body with
    | none => none
    | some body =>
      match paramSlotsDocs? f.params, attrsDocs? f.attributes,
          paramSlotsDocs? f.returns, Statement.to_doc? body with
      | some dparams, some dattrs, some drets, some dbody =>
        some ((((((f.ty.to_doc.append Doc.space).append
            (option_to_doc (f.name.map Identifier.to_doc))).append
          (param_list_doc dparams)).append
            (Doc.space.append (spaced_list_to_doc dattrs))).append
          (Doc.space.append
            (if f.returns.isEmpty then Doc.nil
             else (Doc.text "returns ").append (param_list_doc drets)))).append
          dbody)
      | _, _, _, _ => none

/-- `Docable for ContractPart`. -/
def ContractPart.to_doc? : ContractPart → Option Doc
  | .EventDefinition ed =>
    match ed.to_doc? with
    | some d => some (d.append (Doc.text ";"))
    | none => none
  | .FunctionDefinition fd => fd.to_doc?
  | .VariableDefinition vd =>
    match vd.to_doc? with
    | some d => some (d.append (Doc.text ";"))
    | none => none
  | .EnumDefinition ed => some ed.to_doc
  | .StructDefinition sd => sd.to_doc?
  | .StraySemicolon _ => some (.text ";")
  | .Using u =>
    match u.to_doc? with
    | some d => some (d.append (Doc.text ";"))
    | none => none
  | .ErrorDefinition ed =>
    match ed.to_doc? with
    | some d => some (d.append (Doc.text ";"))
    | none => none
  | .TypeDefinition td =>
    match td.to_doc? with
    | some d => some (d.append (Doc.text ";"))
    | none => none

/-- Document conversion of a contract-part vector. -/
def partsDocs? : List ContractPart → Option (List Doc)
  | [] => some []
  | p :: rest =>
    match p.to_doc?, partsDocs? rest with
    | some d, some ds => some (d :: ds)
    | _, _ => none

/-- Document conversion of a base-contract vector. -/
def basesDocs? : List Base → Option (List Doc)
  | [] => some []
  | b :: rest =>
    match b.to_doc?, basesDocs? rest with
    | some d, some ds => some (d :: ds)
    | _, _ => none

/-- `Docable for ContractDefinition`: the leading keyword is the
literal text `contract`, independent of the `ty` field; the parts are
printed indented, hardline-separated, inside braces. -/
def ContractDefinition.to_doc? (c : ContractDefinition) : Option Doc :=
  match basesDocs? c.base, partsDocs? c.parts with
  | some dbase, some dparts =>
    some ((((((((((Doc.text "contract").append Doc.space).append
        c.name.to_doc).append Doc.space).append
      (if c.base.isEmpty then Doc.nil else Doc.text " is ")).append
        (list_to_doc dbase)).append
      (space_if !c.base.isEmpty)).append (Doc.text "\x7b")).append
        ((Doc.intersperse
            (dparts.map fun d => Doc.nest 4 (Doc.hardline.append d))
            Doc.hardline).append Doc.line)).append (Doc.text "\x7d"))
  | _, _ => none

/-- `Docable for Import`. -/
def Import.to_doc? : Import → Option Doc
  | .Plain s _ =>
    match s.to_doc? with
    | some d => some (((Doc.text "import").append Doc.space).append d)
    | none => none
  | .GlobalSymbol s id _ =>
    match s.to_doc? with
    | some d =>
      some ((((((Doc.text "import").append Doc.space).append d).append
          Doc.space).append (Doc.text " as ")).append id.to_doc)
    | none => none
  | .Rename s renames _ =>
    match s.to_doc? with
    | some d =>
      some ((((((Doc.text "import").append (Doc.text " \x7b ")).append
          (Doc.intersperse
            (renames.map fun r =>
              match r.2 with
              | some alias_ =>
                (r.1.to_doc.append (Doc.text " as ")).append alias_.to_doc
              | none => r.1.to_doc)
            (Doc.text ", "))).append (Doc.text " \x7d")).append
        (Doc.text " from ")).append d)
    | none => none

/-- `Docable for SourceUnitPart`: contract, pragma, import, event,
error and enum definitions print; the remaining parts hit the
panicking catch-all. -/
def SourceUnitPart.to_doc? : SourceUnitPart → Option Doc
  | .ContractDefinition cd => cd.to_doc?
  | .PragmaDirective _ id s =>
    some ((((((Doc.text "pragma ").append id.to_doc).append
        Doc.space).append (Doc.text s.string)).append
      (Doc.text ";")).append Doc.hardline)
  | .ImportDirective i =>
    match i.to_doc? with
    | some d => some (d.append (Doc.text ";"))
    | none => none
  | .EventDefinition ed =>
    match ed.to_doc? with
    | some d => some (d.append (Doc.text ";"))
    | none => none
  | .ErrorDefinition ed =>
    match ed.to_doc? with
    | some d => some (d.append (Doc.text ";"))
    | none => none
  | .EnumDefinition ed => some ed.to_doc
  | _ => none

/-- Document conversion of the top-level part vector. -/
def suPartsDocs? : List SourceUnitPart → Option (List Doc)
  | [] => some []
  | p :: rest =>
    match p.to_doc?, suPartsDocs? rest with
    | some d, some ds => some (d :: ds)
    | _, _ => none

/-- `Docable for SourceUnit`: hardline-separated parts. -/
def SourceUnit.to_doc? (u : SourceUnit) : Option Doc :=
  match suPartsDocs? u.parts with
  | some ds => some (Doc.intersperse ds Doc.hardline)
  | none => none

/-- `Docable::display` for a contract definition (width 70). -/
def ContractDefinition.display? (c : ContractDefinition) : Option String :=
  c.to_doc?.map displayDoc

/-- `Docable::display` for a source unit (width 70). -/
def SourceUnit.display? (u : SourceUnit) : Option String :=
  u.to_doc?.map displayDoc

/-- Derived `PartialEq` for `EventParameter`. -/
def EventParameter.beq (a b : EventParameter) : Bool :=
  Expression.beq a.ty b.ty && Loc.eq a.loc b.loc &&
    a.indexed == b.indexed && optBeq Identifier.beq a.name b.name

/-- Derived `PartialEq` for `EventDefinition`. -/
def EventDefinition.beq (a b : EventDefinition) : Bool :=
  Loc.eq a.loc b.loc && Identifier.beq a.name b.name &&
    listBeq EventParameter.beq a.fields b.fields &&
    a.anonymous == b.anonymous

/-- Derived `PartialEq` for `ErrorParameter`. -/
def ErrorParameter.beq (a b : ErrorParameter) : Bool :=
  Expression.beq a.ty b.ty && Loc.eq a.loc b.loc &&
    optBeq Identifier.beq a.name b.name

/-- Derived `PartialEq` for `ErrorDefinition`. -/
def ErrorDefinition.beq (a b : ErrorDefinition) : Bool :=
  Loc.eq a.loc b.loc && Identifier.beq a.name b.name &&
    listBeq ErrorParameter.beq a.fields b.fields

/-- Derived `PartialEq` for `EnumDefinition`. -/
def EnumDefinition.beq (a b : EnumDefinition) : Bool :=
  Loc.eq a.loc b.loc && Identifier.beq a.name b.name &&
    listBeq Identifier.beq a.values b.values

/-- Derived `PartialEq` for `VariableAttribute`. -/
def VariableAttribute.beq : VariableAttribute → VariableAttribute → Bool
  | .Visibility v, .Visibility v' => Visibility.beq v v'
  | .Constant l, .Constant l' => Loc.eq l l'
  | .Immutable l, .Immutable l' => Loc.eq l l'
  | .Override l ids, .Override l' ids' =>
    Loc.eq l l' && listBeq IdentifierPath.beq ids ids'
  | _, _ => false

/-- Derived `PartialEq` for `VariableDefinition`. -/
def VariableDefinition.beq (a b : VariableDefinition) : Bool :=
  Loc.eq a.loc b.loc && Expression.beq a.ty b.ty &&
    listBeq VariableAttribute.beq a.attrs b.attrs &&
    Identifier.beq a.name b.name && optExprBeq a.initializer b.initializer

/-- Derived `PartialEq` for `TypeDefinition`. -/
def TypeDefinition.beq (a b : TypeDefinition) : Bool :=
  Loc.eq a.loc b.loc && Identifier.beq a.name b.name &&
    Expression.beq a.ty b.ty

/-- Derived `PartialEq` for `StructDefinition`. -/
def StructDefinition.beq (a b : StructDefinition) : Bool :=
  Loc.eq a.loc b.loc && Identifier.beq a.name b.name &&
    listBeq VariableDeclaration.beq a.fields b.fields

/-- Derived `PartialEq` for `UsingList`. -/
def UsingList.beq : UsingList → UsingList → Bool
  | .Library a, .Library b => IdentifierPath.beq a b
  | .Functions a, .Functions b => listBeq IdentifierPath.beq a b
  | _, _ => false

/-- Derived `PartialEq` for `Using`. -/
def Using.beq (a b : Using) : Bool :=
  Loc.eq a.loc b.loc && UsingList.beq a.list b.list &&
    optExprBeq a.ty b.ty && optBeq Identifier.beq a.global b.global

/-- Derived `PartialEq` for `FunctionDefinition`. -/
def FunctionDefinition.beq (a b : FunctionDefinition) : Bool :=
  Loc.eq a.loc b.loc && FunctionTy.beq a.ty b.ty &&
    optBeq Identifier.beq a.name b.name && Loc.eq a.name_loc b.name_loc &&
    paramListBeq a.params b.params && attrsBeq a.attributes b.attributes &&
    optLocEq a.return_not_returns b.return_not_returns &&
    paramListBeq a.returns b.returns && optStmtBeq a.body b.body

/-- Derived `PartialEq` for `ContractPart`. -/
def ContractPart.beq : ContractPart → ContractPart → Bool
  | .StructDefinition a, .StructDefinition b => StructDefinition.beq a b
  | .EventDefinition a, .EventDefinition b => EventDefinition.beq a b
  | .EnumDefinition a, .EnumDefinition b => EnumDefinition.beq a b
  | .ErrorDefinition a, .ErrorDefinition b => ErrorDefinition.beq a b
  | .VariableDefinition a, .VariableDefinition b => VariableDefinition.beq a b
  | .FunctionDefinition a, .FunctionDefinition b => FunctionDefinition.beq a b
  | .TypeDefinition a, .TypeDefinition b => TypeDefinition.beq a b
  | .StraySemicolon a, .StraySemicolon b => Loc.eq a b
  | .Using a, .Using b => Using.beq a b
  | _, _ => false

/-- Derived `PartialEq` for `ContractDefinition`: the kind (`ty`) is
compared by discriminant, so an interface never equals a contract. -/
def ContractDefinition.beq (a b : ContractDefinition) : Bool :=
  Loc.eq a.loc b.loc && ContractTy.beq a.ty b.ty &&
    Identifier.beq a.name b.name && listBeq Base.beq a.base b.base &&
    listBeq ContractPart.beq a.parts b.parts

/-- Derived `PartialEq` for `Import`. -/
def Import.beq : Import → Import → Bool
  | .Plain s l, .Plain s' l' => StringLiteral.beq s s' && Loc.eq l l'
  | .GlobalSymbol s i l, .GlobalSymbol s' i' l' =>
    StringLiteral.beq s s' && Identifier.beq i i' && Loc.eq l l'
  | .Rename s rs l, .Rename s' rs' l' =>
    StringLiteral.beq s s' &&
      listBeq
        (fun r r' =>
          Identifier.beq r.1 r'.1 && optBeq Identifier.beq r.2 r'.2) rs rs' &&
      Loc.eq l l'
  | _, _ => false

/-- Derived `PartialEq` for `SourceUnitPart`. -/
def SourceUnitPart.beq : SourceUnitPart → SourceUnitPart → Bool
  | .ContractDefinition a, .ContractDefinition b => ContractDefinition.beq a b
  | .PragmaDirective l i s, .PragmaDirective l' i' s' =>
    Loc.eq l l' && Identifier.beq i i' && StringLiteral.beq s s'
  | .ImportDirective a, .ImportDirective b => Import.beq a b
  | .EnumDefinition a, .EnumDefinition b => EnumDefinition.beq a b
  | .StructDefinition a, .StructDefinition b => StructDefinition.beq a b
  | .EventDefinition a, .EventDefinition b => EventDefinition.beq a b
  | .ErrorDefinition a, .ErrorDefinition b => ErrorDefinition.beq a b
  | .FunctionDefinition a, .FunctionDefinition b => FunctionDefinition.beq a b
  | .VariableDefinition a, .VariableDefinition b => VariableDefinition.beq a b
  | .TypeDefinition a, .TypeDefinition b => TypeDefinition.beq a b
  | .Using a, .Using b => Using.beq a b
  | .StraySemicolon a, .StraySemicolon b => Loc.eq a b
  | _, _ => false

/-- Derived `PartialEq` for `SourceUnit`. -/
def SourceUnit.beq (a b : SourceUnit) : Bool :=
  listBeq SourceUnitPart.beq a.parts b.parts

/-!
Codegen provenance: `allCodegen` holds of a node when every `Loc`
stored anywhere in it (including slot locations of parameter lists and
optional specifier locations, with an absent optional location counting
as satisfied) is the `Codegen` sentinel.
-/

/-- An optional location is all-Codegen when absent or `Codegen`. -/
def optLocCodegen : Option Loc → Bool
  | none => true
  | some l => l.isCodegen

/-- Provenance check for `Identifier`. -/
def Identifier.allCodegen (i : Identifier) : Bool :=
  i.loc.isCodegen

/-- Provenance check for `IdentifierPath`. -/
def IdentifierPath.allCodegen (p : IdentifierPath) : Bool :=
  p.loc.isCodegen && p.identifiers.all Identifier.allCodegen

/-- Provenance check for `StringLiteral`. -/
def StringLiteral.allCodegen (s : StringLiteral) : Bool :=
  s.loc.isCodegen

/-- Provenance check for `HexLiteral`. -/
def HexLiteral.allCodegen (h : HexLiteral) : Bool :=
  h.loc.isCodegen

/-- Provenance check for `StorageLocation`. -/
def StorageLocation.allCodegen : StorageLocation → Bool
  | .Memory l => l.isCodegen
  | .Storage l => l.isCodegen
  | .Calldata l => l.isCodegen

/-- Provenance check for `Mutability`. -/
def Mutability.allCodegen : Mutability → Bool
  | .Pure l => l.isCodegen
  | .View l => l.isCodegen
  | .Constant l => l.isCodegen
  | .Payable l => l.isCodegen

/-- Provenance check for `Visibility`. -/
def Visibility.allCodegen : Visibility → Bool
  | .External l => optLocCodegen l
  | .Public l => optLocCodegen l
  | .Internal l => optLocCodegen l
  | .Private l => optLocCodegen l

/-- Provenance check for `Unit`. -/
def Unit.allCodegen : Unit → Bool
  | .Seconds l => l.isCodegen
  | .Minutes l => l.isCodegen
  | .Hours l => l.isCodegen
  | .Days l => l.isCodegen
  | .Weeks l => l.isCodegen
  | .Wei l => l.isCodegen
  | .Gwei l => l.isCodegen
  | .Ether l => l.isCodegen

mutual

/-- Provenance check for `YulBlock`. -/
def YulBlock.allCodegen : YulBlock → Bool
  | .mk l ss => l.isCodegen && yulStmtsAllCodegen ss

/-- Provenance check for `YulStatement`. -/
def YulStatement.allCodegen : YulStatement → Bool
  | .Assign l ts e =>
    l.isCodegen && yulExprsAllCodegen ts && YulExpression.allCodegen e
  | .VariableDeclaration l ids i =>
    l.isCodegen && yulTypedIdsAllCodegen ids && optYulExprAllCodegen i
  | .If l c b =>
    l.isCodegen && YulExpression.allCodegen c && YulBlock.allCodegen b
  | .For f => YulFor.allCodegen f
  | .Switch s => YulSwitch.allCodegen s
  | .Leave l => l.isCodegen
  | .Break l => l.isCodegen
  | .Continue l => l.isCodegen
  | .Block b => YulBlock.allCodegen b
  | .FunctionDefinition d => YulFunctionDefinition.allCodegen d
  | .FunctionCall c => YulFunctionCall.allCodegen c

/-- Provenance check for `YulSwitch`. -/
def YulSwitch.allCodegen : YulSwitch → Bool
  | .mk l c cs d =>
    l.isCodegen && YulExpression.allCodegen c &&
      yulSwitchOptsAllCodegen cs && optYulSwitchOptAllCodegen d

/-- Provenance check for `YulFor`. -/
def YulFor.allCodegen : YulFor → Bool
  | .mk l i c p x =>
    l.isCodegen && YulBlock.allCodegen i && YulExpression.allCodegen c &&
      YulBlock.allCodegen p && YulBlock.allCodegen x

/-- Provenance check for `YulExpression`. -/
def YulExpression.allCodegen : YulExpression → Bool
  | .BoolLiteral l _ t => l.isCodegen && t.all Identifier.allCodegen
  | .NumberLiteral l _ _ t => l.isCodegen && t.all Identifier.allCodegen
  | .HexNumberLiteral l _ t => l.isCodegen && t.all Identifier.allCodegen
  | .HexStringLiteral h t =>
    h.allCodegen && t.all Identifier.allCodegen
  | .StringLiteral s t => s.allCodegen && t.all Identifier.allCodegen
  | .Variable i => i.allCodegen
  | .FunctionCall c => YulFunctionCall.allCodegen c
  | .SuffixAccess l e i =>
    l.isCodegen && YulExpression.allCodegen e && i.allCodegen

/-- Provenance check for `YulTypedIdentifier`. -/
def YulTypedIdentifier.allCodegen : YulTypedIdentifier → Bool
  | .mk l i t => l.isCodegen && i.allCodegen && t.all Identifier.allCodegen

/-- Provenance check for `YulFunctionDefinition`. -/
def YulFunctionDefinition.allCodegen : YulFunctionDefinition → Bool
  | .mk l i ps rs b =>
    l.isCodegen && i.allCodegen && yulTypedIdsAllCodegen ps &&
      yulTypedIdsAllCodegen rs && YulBlock.allCodegen b

/-- Provenance check for `YulFunctionCall`. -/
def YulFunctionCall.allCodegen : YulFunctionCall → Bool
  | .mk l i args => l.isCodegen && i.allCodegen && yulExprsAllCodegen args

/-- Provenance check for `YulSwitchOptions`. -/
def YulSwitchOptions.allCodegen : YulSwitchOptions → Bool
  | .Case l e b =>
    l.isCodegen && YulExpression.allCodegen e && YulBlock.allCodegen b
  | .Default l b => l.isCodegen && YulBlock.allCodegen b

/-- Provenance check for a `YulStatement` vector. -/
def yulStmtsAllCodegen : List YulStatement → Bool
  | [] => true
  | s :: rest => YulStatement.allCodegen s && yulStmtsAllCodegen rest

/-- Provenance check for a `YulExpression` vector. -/
def yulExprsAllCodegen : List YulExpression → Bool
  | [] => true
  | e :: rest => YulExpression.allCodegen e && yulExprsAllCodegen rest

/-- Provenance check for a `YulTypedIdentifier` vector. -/
def yulTypedIdsAllCodegen : List YulTypedIdentifier → Bool
  | [] => true
  | i :: rest => YulTypedIdentifier.allCodegen i && yulTypedIdsAllCodegen rest

/-- Provenance check for a `YulSwitchOptions` vector. -/
def yulSwitchOptsAllCodegen : List YulSwitchOptions → Bool
  | [] => true
  | o :: rest => YulSwitchOptions.allCodegen o && yulSwitchOptsAllCodegen rest

/-- Provenance check for an optional `YulExpression`. -/
def optYulExprAllCodegen : Option YulExpression → Bool
  | none => true
  | some e => YulExpression.allCodegen e

/-- Provenance check for an optional `YulSwitchOptions`. -/
def optYulSwitchOptAllCodegen : Option YulSwitchOptions → Bool
  | none => true
  | some o => YulSwitchOptions.allCodegen o

end

mutual

/-- Provenance check for `Type`. -/
def Ty.allCodegen : Ty → Bool
  | .Address => true
  | .AddressPayable => true
  | .Payable => true
  | .Bool => true
  | .String => true
  | .Int _ => true
  | .Uint _ => true
  | .Bytes _ => true
  | .Rational => true
  | .DynamicBytes => true
  | .Mapping l f t =>
    l.isCodegen && Expression.allCodegen f && Expression.allCodegen t
  | .Function ps attrs rets =>
    paramSlotsAllCodegen ps && attrsAllCodegen attrs &&
      optRetAllCodegen rets

/-- Provenance check for `Parameter`. -/
def Parameter.allCodegen : Parameter → Bool
  | .mk l t s n =>
    l.isCodegen && Expression.allCodegen t &&
      (match s with | some st => st.allCodegen | none => true) &&
      (match n with | some i => i.allCodegen | none => true)

/-- Provenance check for `VariableDeclaration`. -/
def VariableDeclaration.allCodegen : VariableDeclaration → Bool
  | .mk l t s n =>
    l.isCodegen && Expression.allCodegen t &&
      (match s with | some st => st.allCodegen | none => true) &&
      n.allCodegen

/-- Provenance check for `NamedArgument`. -/
def NamedArgument.allCodegen : NamedArgument → Bool
  | .mk l n e => l.isCodegen && n.allCodegen && Expression.allCodegen e

/-- Provenance check for `Base`. -/
def Base.allCodegen : Base → Bool
  | .mk l n a =>
    l.isCodegen && n.allCodegen &&
      (match a with | some es => exprsAllCodegen es | none => true)

/-- Provenance check for `FunctionAttribute`. -/
def FunctionAttribute.allCodegen : FunctionAttribute → Bool
  | .Mutability m => m.allCodegen
  | .Visibility v => v.allCodegen
  | .Virtual l => l.isCodegen
  | .Immutable l => l.isCodegen
  | .Override l ids => l.isCodegen && ids.all IdentifierPath.allCodegen
  | .BaseOrModifier l b => l.isCodegen && Base.allCodegen b

/-- Provenance check for `Expression`. -/
def Expression.allCodegen : Expression → Bool
  | .PostIncrement l e => l.isCodegen && Expression.allCodegen e
  | .PostDecrement l e => l.isCodegen && Expression.allCodegen e
  | .New l e => l.isCodegen && Expression.allCodegen e
  | .ArraySubscript l e i =>
    l.isCodegen && Expression.allCodegen e && optExprAllCodegen i
  | .ArraySlice l e a b =>
    l.isCodegen && Expression.allCodegen e && optExprAllCodegen a &&
      optExprAllCodegen b
  | .Parenthesis l e => l.isCodegen && Expression.allCodegen e
  | .MemberAccess l e f =>
    l.isCodegen && Expression.allCodegen e && f.allCodegen
  | .FunctionCall l f args =>
    l.isCodegen && Expression.allCodegen f && exprsAllCodegen args
  | .FunctionCallBlock l b s =>
    l.isCodegen && Expression.allCodegen b && Statement.allCodegen s
  | .NamedFunctionCall l f args =>
    l.isCodegen && Expression.allCodegen f && namedArgsAllCodegen args
  | .Not l e => l.isCodegen && Expression.allCodegen e
  | .Complement l e => l.isCodegen && Expression.allCodegen e
  | .Delete l e => l.isCodegen && Expression.allCodegen e
  | .PreIncrement l e => l.isCodegen && Expression.allCodegen e
  | .PreDecrement l e => l.isCodegen && Expression.allCodegen e
  | .UnaryPlus l e => l.isCodegen && Expression.allCodegen e
  | .UnaryMinus l e => l.isCodegen && Expression.allCodegen e
  | .Power l a b =>
    l.isCodegen && Expression.allCodegen a && Expression.allCodegen b
  | .Multiply l a b =>
    l.isCodegen && Expression.allCodegen a && Expression.allCodegen b
  | .Divide l a b =>
    l.isCodegen && Expression.allCodegen a && Expression.allCodegen b
  | .Modulo l a b =>
    l.isCodegen && Expression.allCodegen a && Expression.allCodegen b
  | .Add l a b =>
    l.isCodegen && Expression.allCodegen a && Expression.allCodegen b
  | .Subtract l a b =>
    l.isCodegen && Expression.allCodegen a && Expression.allCodegen b
  | .ShiftLeft l a b =>
    l.isCodegen && Expression.allCodegen a && Expression.allCodegen b
  | .ShiftRight l a b =>
    l.isCodegen && Expression.allCodegen a && Expression.allCodegen b
  | .BitwiseAnd l a b =>
    l.isCodegen && Expression.allCodegen a && Expression.allCodegen b
  | .BitwiseXor l a b =>
    l.isCodegen && Expression.allCodegen a && Expression.allCodegen b
  | .BitwiseOr l a b =>
    l.isCodegen && Expression.allCodegen a && Expression.allCodegen b
  | .Less l a b =>
    l.isCodegen && Expression.allCodegen a && Expression.allCodegen b
  | .More l a b =>
    l.isCodegen && Expression.allCodegen a && Expression.allCodegen b
  | .LessEqual l a b =>
    l.isCodegen && Expression.allCodegen a && Expression.allCodegen b
  | .MoreEqual l a b =>
    l.isCodegen && Expression.allCodegen a && Expression.allCodegen b
  | .Equal l a b =>
    l.isCodegen && Expression.allCodegen a && Expression.allCodegen b
  | .NotEqual l a b =>
    l.isCodegen && Expression.allCodegen a && Expression.allCodegen b
  | .And l a b =>
    l.isCodegen && Expression.allCodegen a && Expression.allCodegen b
  | .Or l a b =>
    l.isCodegen && Expression.allCodegen a && Expression.allCodegen b
  | .Ternary l c a b =>
    l.isCodegen && Expression.allCodegen c && Expression.allCodegen a &&
      Expression.allCodegen b
  | .Assign l a b =>
    l.isCodegen && Expression.allCodegen a && Expression.allCodegen b
  | .AssignOr l a b =>
    l.isCodegen && Expression.allCodegen a && Expression.allCodegen b
  | .AssignAnd l a b =>
    l.isCodegen && Expression.allCodegen a && Expression.allCodegen b
  | .AssignXor l a b =>
    l.isCodegen && Expression.allCodegen a && Expression.allCodegen b
  | .AssignShiftLeft l a b =>
    l.isCodegen && Expression.allCodegen a && Expression.allCodegen b
  | .AssignShiftRight l a b =>
    l.isCodegen && Expression.allCodegen a && Expression.allCodegen b
  | .AssignAdd l a b =>
    l.isCodegen && Expression.allCodegen a && Expression.allCodegen b
  | .AssignSubtract l a b =>
    l.isCodegen && Expression.allCodegen a && Expression.allCodegen b
  | .AssignMultiply l a b =>
    l.isCodegen && Expression.allCodegen a && Expression.allCodegen b
  | .AssignDivide l a b =>
    l.isCodegen && Expression.allCodegen a && Expression.allCodegen b
  | .AssignModulo l a b =>
    l.isCodegen && Expression.allCodegen a && Expression.allCodegen b
  | .BoolLiteral l _ => l.isCodegen
  | .NumberLiteral l _ _ => l.isCodegen
  | .RationalNumberLiteral l _ _ _ => l.isCodegen
  | .HexNumberLiteral l _ => l.isCodegen
  | .StringLiteral v => v.all StringLiteral.allCodegen
  | .«Type» l t => l.isCodegen && Ty.allCodegen t
  | .HexLiteral v => v.all HexLiteral.allCodegen
  | .AddressLiteral l _ => l.isCodegen
  | .Variable i => i.allCodegen
  | .List l ps => l.isCodegen && paramSlotsAllCodegen ps
  | .ArrayLiteral l es => l.isCodegen && exprsAllCodegen es
  | .Unit l e u => l.isCodegen && Expression.allCodegen e && u.allCodegen
  | .This l => l.isCodegen

/-- Provenance check for `Statement`. -/
def Statement.allCodegen : Statement → Bool
  | .Block l _ ss => l.isCodegen && stmtsAllCodegen ss
  | .Assembly l d f b =>
    l.isCodegen && d.all StringLiteral.allCodegen &&
      (match f with
       | some fs => fs.all StringLiteral.allCodegen
       | none => true) && YulBlock.allCodegen b
  | .Args l args => l.isCodegen && namedArgsAllCodegen args
  | .If l c t f =>
    l.isCodegen && Expression.allCodegen c && Statement.allCodegen t &&
      optStmtAllCodegen f
  | .While l c b =>
    l.isCodegen && Expression.allCodegen c && Statement.allCodegen b
  | .Expression l e => l.isCodegen && Expression.allCodegen e
  | .VariableDefinition l d i =>
    l.isCodegen && VariableDeclaration.allCodegen d && optExprAllCodegen i
  | .For l i c p b =>
    l.isCodegen && optStmtAllCodegen i && optExprAllCodegen c &&
      optStmtAllCodegen p && optStmtAllCodegen b
  | .DoWhile l b c =>
    l.isCodegen && Statement.allCodegen b && Expression.allCodegen c
  | .Continue l => l.isCodegen
  | .Break l => l.isCodegen
  | .Return l e => l.isCodegen && optExprAllCodegen e
  | .Revert l p args =>
    l.isCodegen && p.all IdentifierPath.allCodegen && exprsAllCodegen args
  | .RevertNamedArgs l p args =>
    l.isCodegen && p.all IdentifierPath.allCodegen &&
      namedArgsAllCodegen args
  | .Emit l e => l.isCodegen && Expression.allCodegen e
  | .Try l e ok cs =>
    l.isCodegen && Expression.allCodegen e && optOkAllCodegen ok &&
      catchesAllCodegen cs

/-- Provenance check for `CatchClause`. -/
def CatchClause.allCodegen : CatchClause → Bool
  | .Simple l p s =>
    l.isCodegen &&
      (match p with | some pp => Parameter.allCodegen pp | none => true) &&
      Statement.allCodegen s
  | .Named l i p s =>
    l.isCodegen && i.allCodegen && Parameter.allCodegen p &&
      Statement.allCodegen s

/-- Provenance check for an `Expression` vector. -/
def exprsAllCodegen : List Expression → Bool
  | [] => true
  | e :: rest => Expression.allCodegen e && exprsAllCodegen rest

/-- Provenance check for an optional `Expression`. -/
def optExprAllCodegen : Option Expression → Bool
  | none => true
  | some e => Expression.allCodegen e

/-- Provenance check for a `NamedArgument` vector. -/
def namedArgsAllCodegen : List NamedArgument → Bool
  | [] => true
  | a :: rest => NamedArgument.allCodegen a && namedArgsAllCodegen rest

/-- Provenance check for a `ParameterList` slot: both the slot
location and the optional parameter. -/
def paramSlotAllCodegen : Loc × Option Parameter → Bool
  | (l, none) => l.isCodegen
  | (l, some p) => l.isCodegen && Parameter.allCodegen p

/-- Provenance check for a `ParameterList`. -/
def paramSlotsAllCodegen : List (Loc × Option Parameter) → Bool
  | [] => true
  | s :: rest => paramSlotAllCodegen s && paramSlotsAllCodegen rest

/-- Provenance check for a `FunctionAttribute` vector. -/
def attrsAllCodegen : List FunctionAttribute → Bool
  | [] => true
  | a :: rest => FunctionAttribute.allCodegen a && attrsAllCodegen rest

/-- Provenance check for a `Statement` vector. -/
def stmtsAllCodegen : List Statement → Bool
  | [] => true
  | s :: rest => Statement.allCodegen s && stmtsAllCodegen rest

/-- Provenance check for an optional `Statement`. -/
def optStmtAllCodegen : Option Statement → Bool
  | none => true
  | some s => Statement.allCodegen s

/-- Provenance check for the `Type::Function` returns component. -/
def optRetAllCodegen :
    Option (List (Loc × Option Parameter) × List FunctionAttribute) → Bool
  | none => true
  | some (ps, attrs) => paramSlotsAllCodegen ps && attrsAllCodegen attrs

/-- Provenance check for the `Try` success-capture component. -/
def optOkAllCodegen :
    Option (List (Loc × Option Parameter) × Statement) → Bool
  | none => true
  | some (ps, s) => paramSlotsAllCodegen ps && Statement.allCodegen s

/-- Provenance check for a `CatchClause` vector. -/
def catchesAllCodegen : List CatchClause → Bool
  | [] => true
  | c :: rest => CatchClause.allCodegen c && catchesAllCodegen rest

end

/-- Provenance check for `EventParameter`. -/
def EventParameter.allCodegen (p : EventParameter) : Bool :=
  Expression.allCodegen p.ty && p.loc.isCodegen &&
    p.name.all Identifier.allCodegen

/-- Provenance check for `EventDefinition`. -/
def EventDefinition.allCodegen (e : EventDefinition) : Bool :=
  e.loc.isCodegen && e.name.allCodegen &&
    e.fields.all EventParameter.allCodegen

/-- Provenance check for `FunctionDefinition`. -/
def FunctionDefinition.allCodegen (f : FunctionDefinition) : Bool :=
  f.loc.isCodegen && f.name.all Identifier.allCodegen &&
    f.name_loc.isCodegen && paramSlotsAllCodegen f.params &&
    attrsAllCodegen f.attributes && optLocCodegen f.return_not_returns &&
    paramSlotsAllCodegen f.returns && optStmtAllCodegen f.body

end Solang

namespace Solang.codegen

/-!
Shallow embedding of `src/solang-parser/src/codegen.rs`: builders for
synthetic PT fragments carrying `Loc::Codegen` provenance. The
functions with `assert!` preconditions return `Option`; `none` models
the assertion failure.
-/

open Solang

/-- codegen.rs `id`: an identifier at `Loc::Codegen`. -/
def id (name : String) : Identifier :=
  { loc := .Codegen, name := name }

/-- codegen.rs `var_expr`: a variable reference to `name`. -/
def var_expr (name : String) : Expression :=
  .Variable (id name)

/-- codegen.rs `type_expr`: a type used as an expression. -/
def type_expr (ty : Ty) : Expression :=
  .«Type» .Codegen ty

/-- codegen.rs `call_expr`: `name(args)` as a function call on a
variable reference. -/
def call_expr (name : String) (args : List Expression) : Expression :=
  .FunctionCall .Codegen (var_expr name) args

/-- codegen.rs `emit_stmt`: `emit name(args);`. -/
def emit_stmt (name : String) (args : List Expression) : Statement :=
  .Emit .Codegen (call_expr name args)

/-- codegen.rs `block_stmt`: a block with `unchecked = true`. -/
def block_stmt (stmts : List Statement) : Statement :=
  .Block .Codegen true stmts

/-- codegen.rs `event_def`: a non-anonymous event definition. -/
def event_def (name : String) (params : List EventParameter) :
    EventDefinition :=
  { loc := .Codegen
    name := id name
    fields := params
    anonymous := false }

/-- codegen.rs `annon_parameter`: an unnamed parameter of the given
type. -/
def annon_parameter (ty : Ty) : Parameter :=
  .mk .Codegen (type_expr ty) none none

/-- codegen.rs `event_parameter`: a named, non-indexed event
parameter. -/
def event_parameter (name : String) (ty : Ty) : EventParameter :=
  { ty := type_expr ty
    loc := .Codegen
    indexed := false
    name := some (id name) }

/-- codegen.rs `parameter`: a named parameter of the given type. -/
def parameter (name : String) (ty : Ty) : Parameter :=
  .mk .Codegen (type_expr ty) none (some (id name))

/-- codegen.rs `annon_parameter_list`. -/
def annon_parameter_list (params : List Ty) : ParameterList :=
  params.map fun p => (Loc.Codegen, some (annon_parameter p))

/-- codegen.rs `parameter_list`. -/
def parameter_list (params : List (String × Ty)) : ParameterList :=
  params.map fun p => (Loc.Codegen, some (parameter p.1 p.2))

/-- codegen.rs `function_def`: a public function definition with the
given name, parameters, optional return type and body. -/
def function_def (name : String) (params : ParameterList)
    (ret : Option Ty) (body : Statement) : FunctionDefinition :=
  { loc := .Codegen
    ty := .Function
    name := some (id name)
    name_loc := .Codegen
    params := params
    attributes := [.Visibility (.Public none)]
    return_not_returns := none
    returns :=
      annon_parameter_list (match ret with | some r => [r] | none => [])
    body := some body }

/-- codegen.rs `param_to_event_param`: copies the parameter's type and
optional name into a non-indexed event parameter at `Loc::Codegen`.
There is no assertion: an unnamed parameter is accepted. -/
def param_to_event_param (param : Parameter) : EventParameter :=
  { ty := param.ty
    loc := .Codegen
    indexed := false
    name := param.name }

/-- codegen.rs `params_to_event_params`: asserts every slot holds a
parameter (`p.1.is_some()`), then converts each. -/
def params_to_event_params : ParameterList → Option (List EventParameter)
  | [] => some []
  | (_, none) :: _ => none
  | (_, some p) :: rest =>
    match params_to_event_params rest with
    | some es => some (param_to_event_param p :: es)
    | none => none

/-- codegen.rs `param_to_arg`: asserts the parameter is named, then
builds a by-name variable reference. -/
def param_to_arg (param : Parameter) : Option Expression :=
  match param.name with
  | some n => some (var_expr n.name)
  | none => none

/-- codegen.rs `params_to_args`: asserts every slot holds a parameter,
then converts each via `param_to_arg` (which asserts it is named). -/
def params_to_args : ParameterList → Option (List Expression)
  | [] => some []
  | (_, none) :: _ => none
  | (_, some p) :: rest =>
    match param_to_arg p, params_to_args rest with
    | some e, some es => some (e :: es)
    | _, _ => none

end Solang.codegen

namespace Solang

/-!
Concrete trees and auxiliary notions used when settling the claims.
-/

/-- A one-part source unit holding an interface definition `I` with no
bases and no parts. -/
def ifaceTree : SourceUnit :=
  ⟨[.ContractDefinition
      ⟨.Codegen, .Interface .Codegen, ⟨.Codegen, "I"⟩, [], []⟩]⟩

/-- The same source unit with the kind changed to `contract`. -/
def contractTree : SourceUnit :=
  ⟨[.ContractDefinition
      ⟨.Codegen, .Contract .Codegen, ⟨.Codegen, "I"⟩, [], []⟩]⟩

/-- A parse function `p` round-trips on the tree `t` when printing `t`
succeeds and re-parsing the printed text yields a tree structurally
equal (modulo `Loc`) to `t`. -/
def roundTripsOn (p : String → Option SourceUnit) (t : SourceUnit) : Prop :=
  ∃ s t', SourceUnit.display? t = some s ∧ p s = some t' ∧
    SourceUnit.beq t' t = true

/-- A tree that matches the interface tree cannot match the contract
tree: the two differ in the `ContractTy` discriminant, which
structural equality compares. -/
theorem beq_iface_not_contract (t : SourceUnit)
    (h : SourceUnit.beq t ifaceTree = true) :
    SourceUnit.beq t contractTree = false := by
  obtain ⟨parts⟩ := t
  match parts with
  | [] => simp [SourceUnit.beq, ifaceTree, listBeq] at h
  | p :: q :: rest =>
    simp [SourceUnit.beq, ifaceTree, listBeq] at h
  | [p] =>
    cases p <;>
      simp_all [SourceUnit.beq, ifaceTree, contractTree, listBeq,
        SourceUnitPart.beq, ContractDefinition.beq, ContractTy.beq]
    case ContractDefinition cd =>
      obtain ⟨cl, cty, cname, cbase, cparts⟩ := cd
      cases cty <;> simp_all [ContractTy.beq]

/-- C1. Pretty-print round-trip: refuted. The printer emits the same
text for an interface definition and a contract definition of the same
name (the kind is erased), while the two parse trees are structurally
unequal; hence no parse function whatsoever can round-trip both
printable trees, and the property fails for at least one of the two
supported source texts. -/
theorem c1_round_trip_counterexample :
    SourceUnit.display? ifaceTree = SourceUnit.display? contractTree ∧
    SourceUnit.display? ifaceTree = some "contract I \x7b\n\x7d" ∧
    SourceUnit.beq ifaceTree contractTree = false ∧
    ¬ ∃ p : String → Option SourceUnit,
        roundTripsOn p ifaceTree ∧ roundTripsOn p contractTree := by
  refine ⟨rfl, rfl, by decide, ?_⟩
  rintro ⟨p, ⟨s1, t1, h1, h2, h3⟩, ⟨s2, t2, h4, h5, h6⟩⟩
  have hs1 : s1 = "contract I \x7b\n\x7d" := by
    have : (some s1 : Option String) = some "contract I \x7b\n\x7d" := by
      rw [← h1]; rfl
    exact Option.some.inj this
  have hs2 : s2 = "contract I \x7b\n\x7d" := by
    have : (some s2 : Option String) = some "contract I \x7b\n\x7d" := by
      rw [← h4]; rfl
    exact Option.some.inj this
  subst hs1; subst hs2
  have ht : t1 = t2 := by
    have := h2.symm.trans h5
    exact Option.some.inj this
  subst ht
  have := beq_iface_not_contract t1 h3
  rw [this] at h6
  cases h6

/-- C1 (amended). Round-trip cannot hold on the whole printable
subset: any parse function that round-trips the interface tree fails
to round-trip the contract tree printing to the same text. -/
theorem c1_amended_round_trip (p : String → Option SourceUnit)
    (h : roundTripsOn p ifaceTree) : ¬ roundTripsOn p contractTree := by
  rintro ⟨s2, t2, h4, h5, h6⟩
  rcases h with ⟨s1, t1, h1, h2, h3⟩
  have hs1 : s1 = "contract I \x7b\n\x7d" := by
    have : (some s1 : Option String) = some "contract I \x7b\n\x7d" := by
      rw [← h1]; rfl
    exact Option.some.inj this
  have hs2 : s2 = "contract I \x7b\n\x7d" := by
    have : (some s2 : Option String) = some "contract I \x7b\n\x7d" := by
      rw [← h4]; rfl
    exact Option.some.inj this
  subst hs1; subst hs2
  have ht : t1 = t2 := Option.some.inj (h2.symm.trans h5)
  subst ht
  have := beq_iface_not_contract t1 h3
  rw [this] at h6
  cases h6

/-- C1 witness: a parse function that maps everything to the interface
tree round-trips the interface tree, so by the theorem it cannot
round-trip the contract tree. -/
theorem c1_amended_round_trip_witness :
    ¬ roundTripsOn (fun _ => some ifaceTree) contractTree :=
  c1_amended_round_trip (fun _ => some ifaceTree)
    ⟨"contract I \x7b\n\x7d", ifaceTree, rfl, rfl, by decide⟩

/-- C2. `Loc` equality is trivially true on every pair of values,
sentinels and `File` ranges alike; in particular it is total,
reflexive, symmetric and transitive. -/
theorem c2_loc_eq_trivial :
    (∀ a b : Loc, Loc.eq a b = true) ∧
    (∀ a : Loc, Loc.eq a a = true) ∧
    (∀ a b : Loc, Loc.eq a b = Loc.eq b a) ∧
    (∀ a b c : Loc, Loc.eq a b = true → Loc.eq b c = true →
      Loc.eq a c = true) :=
  ⟨fun _ _ => rfl, fun _ => rfl, fun _ _ => rfl, fun _ _ _ _ _ => rfl⟩

/-- C2 witness: the theorem applied at mixed sentinel and `File`
values. -/
theorem c2_loc_eq_trivial_witness :
    Loc.eq Loc.Builtin (Loc.File 1 2 3) = true ∧
    Loc.eq (Loc.File 1 2 3) (Loc.File 4 5 6) = true :=
  ⟨c2_loc_eq_trivial.1 .Builtin (.File 1 2 3),
   c2_loc_eq_trivial.2.2.2 (.File 1 2 3) .Codegen (.File 4 5 6)
     (c2_loc_eq_trivial.1 (.File 1 2 3) .Codegen)
     (c2_loc_eq_trivial.1 .Codegen (.File 4 5 6))⟩

/-- C3. Refuted: `Loc`'s hash is the `#[derive(Hash)]` structural one,
feeding the variant discriminant (and the `File` fields) to the
hasher, so two locations that compare equal hash different data. -/
theorem c3_hash_counterexample :
    Loc.eq Loc.Builtin (Loc.File 1 2 3) = true ∧
    Loc.hashData Loc.Builtin ≠ Loc.hashData (Loc.File 1 2 3) :=
  ⟨rfl, by decide⟩

/-- C3 (amended). The derived hash is structural, not a single fixed
value: two `Loc` values feed identical data to the hasher exactly when
they are structurally identical, so the hash is not consistent with
the trivial equality. -/
theorem c3_amended_hash_structural :
    ∀ a b : Loc, (Loc.hashData a = Loc.hashData b ↔ a = b) := by
  intro a b
  cases a <;> cases b <;> simp [Loc.hashData]

/-- C4. Refuted at the stated empty-vector inputs: `loc()` on a
string-literal or hex-literal expression with no literals indexes
`v[0]` and faults (modelled by `none`). -/
theorem c4_loc_counterexample :
    Expression.loc? (.StringLiteral []) = none ∧
    Expression.loc? (.HexLiteral []) = none :=
  ⟨rfl, rfl⟩

/-- C4 (amended). `loc()` is total on `Statement` and `YulStatement`;
on `Expression` it faults exactly on a `StringLiteral` or `HexLiteral`
holding an empty vector of literals. -/
theorem c4_amended_loc_totality :
    (∀ e : Expression, Expression.loc? e = none ↔
      (e = .StringLiteral [] ∨ e = .HexLiteral [])) ∧
    (∀ s : Statement, ∃ l : Loc, Statement.loc s = l) ∧
    (∀ y : YulStatement, ∃ l : Loc, YulStatement.loc y = l) := by
  refine ⟨?_, fun s => ⟨Statement.loc s, rfl⟩,
    fun y => ⟨YulStatement.loc y, rfl⟩⟩
  intro e
  cases e <;> simp [Expression.loc?]

/-- C5. Refuted in both directions at concrete inputs: a
`FunctionAttribute::Override` prints without aborting, while
`Statement::DoWhile` and `Statement::For` (not in the claimed list)
abort. -/
theorem c5_counterexample :
    (FunctionAttribute.to_doc? (.Override .Codegen [])).isSome = true ∧
    Statement.to_doc? (.DoWhile .Codegen (.Break .Codegen)
      (.This .Codegen)) = none ∧
    Statement.to_doc? (.For .Codegen none none none none) = none :=
  ⟨rfl, rfl, rfl⟩

set_option maxHeartbeats 16000000 in
/-- C5 (amended). The fatal dispatch set is exactly: `Statement`
`Assembly`, `RevertNamedArgs`, `Try`, `For` and `DoWhile`;
`Expression` `ArraySlice`, `NamedFunctionCall`, `Complement`,
`Delete`, `UnaryPlus`, `UnaryMinus`, `Power`, `BitwiseAnd`,
`BitwiseXor`, `BitwiseOr`, `Ternary`, `AssignOr`, `AssignAnd`,
`AssignXor`, `AssignShiftLeft`, `AssignShiftRight`,
`RationalNumberLiteral`, `HexNumberLiteral`, `HexLiteral`,
`AddressLiteral` and `Unit`; `Type` `Function` and `Rational`; and
`VariableAttribute::Override` (whereas `FunctionAttribute::Override`
and every other function attribute always print). Every other
variant prints whenever its sub-nodes do: each supported `Statement`
and `Expression` head has a conditional conjunct (sub-node documents
given, the head produces a document), the elementary `Type` variants
print unconditionally, and `Mapping` prints on printable key and
value. -/
theorem c5_amended_fatal_set :
    (∀ (l : Loc) (a b : Expression) (da db : Doc),
      Expression.to_doc? a = some da →
      Expression.to_doc? b = some db →
      (Expression.to_doc? (.Add l a b)).isSome = true) ∧
    (∀ (l : Loc) d f b, Statement.to_doc? (.Assembly l d f b) = none) ∧
    (∀ (l : Loc) p args,
      Statement.to_doc? (.RevertNamedArgs l p args) = none) ∧
    (∀ (l : Loc) e ok cs, Statement.to_doc? (.Try l e ok cs) = none) ∧
    (∀ (l : Loc) i c p b, Statement.to_doc? (.For l i c p b) = none) ∧
    (∀ (l : Loc) b c, Statement.to_doc? (.DoWhile l b c) = none) ∧
    (∀ (l : Loc) e a b, Expression.to_doc? (.ArraySlice l e a b) = none) ∧
    (∀ (l : Loc) f args,
      Expression.to_doc? (.NamedFunctionCall l f args) = none) ∧
    (∀ (l : Loc) e, Expression.to_doc? (.Complement l e) = none) ∧
    (∀ (l : Loc) e, Expression.to_doc? (.Delete l e) = none) ∧
    (∀ (l : Loc) e, Expression.to_doc? (.UnaryPlus l e) = none) ∧
    (∀ (l : Loc) e, Expression.to_doc? (.UnaryMinus l e) = none) ∧
    (∀ (l : Loc) a b, Expression.to_doc? (.Power l a b) = none) ∧
    (∀ (l : Loc) a b, Expression.to_doc? (.BitwiseAnd l a b) = none) ∧
    (∀ (l : Loc) a b, Expression.to_doc? (.BitwiseXor l a b) = none) ∧
    (∀ (l : Loc) a b, Expression.to_doc? (.BitwiseOr l a b) = none) ∧
    (∀ (l : Loc) c a b, Expression.to_doc? (.Ternary l c a b) = none) ∧
    (∀ (l : Loc) a b, Expression.to_doc? (.AssignOr l a b) = none) ∧
    (∀ (l : Loc) a b, Expression.to_doc? (.AssignAnd l a b) = none) ∧
    (∀ (l : Loc) a b, Expression.to_doc? (.AssignXor l a b) = none) ∧
    (∀ (l : Loc) a b, Expression.to_doc? (.AssignShiftLeft l a b) = none) ∧
    (∀ (l : Loc) a b, Expression.to_doc? (.AssignShiftRight l a b) = none) ∧
    (∀ (l : Loc) i f e,
      Expression.to_doc? (.RationalNumberLiteral l i f e) = none) ∧
    (∀ (l : Loc) s, Expression.to_doc? (.HexNumberLiteral l s) = none) ∧
    (∀ v, Expression.to_doc? (.HexLiteral v) = none) ∧
    (∀ (l : Loc) s, Expression.to_doc? (.AddressLiteral l s) = none) ∧
    (∀ (l : Loc) e u, Expression.to_doc? (.Unit l e u) = none) ∧
    Ty.to_doc? .Rational = none ∧
    (∀ ps attrs rets, Ty.to_doc? (.Function ps attrs rets) = none) ∧
    (∀ (l : Loc) (ids : List IdentifierPath),
      VariableAttribute.to_doc? (.Override l ids) = none) ∧
    (∀ (l : Loc) ids,
      (FunctionAttribute.to_doc? (.Override l ids)).isSome = true) ∧
    (∀ (l : Loc) u, (Statement.to_doc? (.Block l u [])).isSome = true) ∧
    (∀ (l : Loc), (Statement.to_doc? (.Args l [])).isSome = true) ∧
    (∀ (l l1 l2 : Loc),
      (Statement.to_doc? (.If l (.This l1) (.Continue l2) none)).isSome =
        true) ∧
    (∀ (l l1 l2 : Loc),
      (Statement.to_doc? (.While l (.This l1) (.Continue l2))).isSome =
        true) ∧
    (∀ (l l1 : Loc),
      (Statement.to_doc? (.Expression l (.This l1))).isSome = true) ∧
    (∀ (l l1 l2 l3 : Loc) (n : String),
      (Statement.to_doc? (.VariableDefinition l
        (.mk l1 (.«Type» l2 .Bool) none ⟨l3, n⟩) none)).isSome = true) ∧
    (∀ (l : Loc), (Statement.to_doc? (.Continue l)).isSome = true) ∧
    (∀ (l : Loc), (Statement.to_doc? (.Break l)).isSome = true) ∧
    (∀ (l : Loc), (Statement.to_doc? (.Return l none)).isSome = true) ∧
    (∀ (l l1 : Loc),
      (Statement.to_doc? (.Return l (some (.This l1)))).isSome = true) ∧
    (∀ (l : Loc), (Statement.to_doc? (.Revert l none [])).isSome = true) ∧
    (∀ (l l1 : Loc),
      (Statement.to_doc? (.Emit l (.This l1))).isSome = true) ∧
    (∀ (l : Loc) (u : Bool) (ss : List Statement) (ds : List Doc),
      stmtsDocs? ss = some ds →
      (Statement.to_doc? (.Block l u ss)).isSome = true) ∧
    (∀ (l : Loc) (args : List NamedArgument) (ds : List Doc),
      namedArgsDocs? args = some ds →
      (Statement.to_doc? (.Args l args)).isSome = true) ∧
    (∀ (l : Loc) (c : Expression) (tb : Statement) (fb : Option Statement)
        (dc dt df : Doc),
      Expression.to_doc? c = some dc → Statement.to_doc? tb = some dt →
      optStmtDoc? fb = some df →
      (Statement.to_doc? (.If l c tb fb)).isSome = true) ∧
    (∀ (l : Loc) (c : Expression) (b : Statement) (dc db : Doc),
      Expression.to_doc? c = some dc → Statement.to_doc? b = some db →
      (Statement.to_doc? (.While l c b)).isSome = true) ∧
    (∀ (l : Loc) (e : Expression) (d : Doc),
      Expression.to_doc? e = some d →
      (Statement.to_doc? (.Expression l e)).isSome = true) ∧
    (∀ (l : Loc) (decl : VariableDeclaration) (d : Doc),
      VariableDeclaration.to_doc? decl = some d →
      (Statement.to_doc? (.VariableDefinition l decl none)).isSome =
        true) ∧
    (∀ (l : Loc) (decl : VariableDeclaration) (e : Expression)
        (dd de : Doc),
      VariableDeclaration.to_doc? decl = some dd →
      Expression.to_doc? e = some de →
      (Statement.to_doc? (.VariableDefinition l decl (some e))).isSome =
        true) ∧
    (∀ (l : Loc) (e : Expression) (d : Doc),
      Expression.to_doc? e = some d →
      (Statement.to_doc? (.Return l (some e))).isSome = true) ∧
    (∀ (l : Loc) (id : Option IdentifierPath) (args : List Expression)
        (ds : List Doc),
      exprsDocs? args = some ds →
      (Statement.to_doc? (.Revert l id args)).isSome = true) ∧
    (∀ (l : Loc) (e : Expression) (d : Doc),
      Expression.to_doc? e = some d →
      (Statement.to_doc? (.Emit l e)).isSome = true) ∧
    (∀ (l : Loc) (e : Expression) (d : Doc),
      Expression.to_doc? e = some d →
      (Expression.to_doc? (.PostIncrement l e)).isSome = true) ∧
    (∀ (l : Loc) (e : Expression) (d : Doc),
      Expression.to_doc? e = some d →
      (Expression.to_doc? (.PostDecrement l e)).isSome = true) ∧
    (∀ (l : Loc) (e : Expression) (d : Doc),
      Expression.to_doc? e = some d →
      (Expression.to_doc? (.New l e)).isSome = true) ∧
    (∀ (l : Loc) (e : Expression) (d : Doc),
      Expression.to_doc? e = some d →
      (Expression.to_doc? (.Parenthesis l e)).isSome = true) ∧
    (∀ (l : Loc) (e : Expression) (d : Doc),
      Expression.to_doc? e = some d →
      (Expression.to_doc? (.Not l e)).isSome = true) ∧
    (∀ (l : Loc) (e : Expression) (d : Doc),
      Expression.to_doc? e = some d →
      (Expression.to_doc? (.PreIncrement l e)).isSome = true) ∧
    (∀ (l : Loc) (e : Expression) (d : Doc),
      Expression.to_doc? e = some d →
      (Expression.to_doc? (.PreDecrement l e)).isSome = true) ∧
    (∀ (l : Loc) (e : Expression) (f : Identifier) (d : Doc),
      Expression.to_doc? e = some d →
      (Expression.to_doc? (.MemberAccess l e f)).isSome = true) ∧
    (∀ (l : Loc) (a b : Expression) (da db : Doc),
      Expression.to_doc? a = some da →
      Expression.to_doc? b = some db →
      (Expression.to_doc? (.Assign l a b)).isSome = true) ∧
    (∀ (l : Loc) (a b : Expression) (da db : Doc),
      Expression.to_doc? a = some da →
      Expression.to_doc? b = some db →
      (Expression.to_doc? (.AssignAdd l a b)).isSome = true) ∧
    (∀ (l : Loc) (a b : Expression) (da db : Doc),
      Expression.to_doc? a = some da →
      Expression.to_doc? b = some db →
      (Expression.to_doc? (.AssignSubtract l a b)).isSome = true) ∧
    (∀ (l : Loc) (a b : Expression) (da db : Doc),
      Expression.to_doc? a = some da →
      Expression.to_doc? b = some db →
      (Expression.to_doc? (.AssignMultiply l a b)).isSome = true) ∧
    (∀ (l : Loc) (a b : Expression) (da db : Doc),
      Expression.to_doc? a = some da →
      Expression.to_doc? b = some db →
      (Expression.to_doc? (.AssignDivide l a b)).isSome = true) ∧
    (∀ (l : Loc) (a b : Expression) (da db : Doc),
      Expression.to_doc? a = some da →
      Expression.to_doc? b = some db →
      (Expression.to_doc? (.AssignModulo l a b)).isSome = true) ∧
    (∀ (l : Loc) (a b : Expression) (da db : Doc),
      Expression.to_doc? a = some da →
      Expression.to_doc? b = some db →
      (Expression.to_doc? (.Multiply l a b)).isSome = true) ∧
    (∀ (l : Loc) (a b : Expression) (da db : Doc),
      Expression.to_doc? a = some da →
      Expression.to_doc? b = some db →
      (Expression.to_doc? (.Divide l a b)).isSome = true) ∧
    (∀ (l : Loc) (a b : Expression) (da db : Doc),
      Expression.to_doc? a = some da →
      Expression.to_doc? b = some db →
      (Expression.to_doc? (.Modulo l a b)).isSome = true) ∧
    (∀ (l : Loc) (a b : Expression) (da db : Doc),
      Expression.to_doc? a = some da →
      Expression.to_doc? b = some db →
      (Expression.to_doc? (.Subtract l a b)).isSome = true) ∧
    (∀ (l : Loc) (a b : Expression) (da db : Doc),
      Expression.to_doc? a = some da →
      Expression.to_doc? b = some db →
      (Expression.to_doc? (.ShiftLeft l a b)).isSome = true) ∧
    (∀ (l : Loc) (a b : Expression) (da db : Doc),
      Expression.to_doc? a = some da →
      Expression.to_doc? b = some db →
      (Expression.to_doc? (.ShiftRight l a b)).isSome = true) ∧
    (∀ (l : Loc) (a b : Expression) (da db : Doc),
      Expression.to_doc? a = some da →
      Expression.to_doc? b = some db →
      (Expression.to_doc? (.Less l a b)).isSome = true) ∧
    (∀ (l : Loc) (a b : Expression) (da db : Doc),
      Expression.to_doc? a = some da →
      Expression.to_doc? b = some db →
      (Expression.to_doc? (.More l a b)).isSome = true) ∧
    (∀ (l : Loc) (a b : Expression) (da db : Doc),
      Expression.to_doc? a = some da →
      Expression.to_doc? b = some db →
      (Expression.to_doc? (.LessEqual l a b)).isSome = true) ∧
    (∀ (l : Loc) (a b : Expression) (da db : Doc),
      Expression.to_doc? a = some da →
      Expression.to_doc? b = some db →
      (Expression.to_doc? (.MoreEqual l a b)).isSome = true) ∧
    (∀ (l : Loc) (a b : Expression) (da db : Doc),
      Expression.to_doc? a = some da →
      Expression.to_doc? b = some db →
      (Expression.to_doc? (.Equal l a b)).isSome = true) ∧
    (∀ (l : Loc) (a b : Expression) (da db : Doc),
      Expression.to_doc? a = some da →
      Expression.to_doc? b = some db →
      (Expression.to_doc? (.NotEqual l a b)).isSome = true) ∧
    (∀ (l : Loc) (a b : Expression) (da db : Doc),
      Expression.to_doc? a = some da →
      Expression.to_doc? b = some db →
      (Expression.to_doc? (.And l a b)).isSome = true) ∧
    (∀ (l : Loc) (a b : Expression) (da db : Doc),
      Expression.to_doc? a = some da →
      Expression.to_doc? b = some db →
      (Expression.to_doc? (.Or l a b)).isSome = true) ∧
    (∀ (l : Loc) (e : Expression) (i : Option Expression) (de di : Doc),
      Expression.to_doc? e = some de → optExprDoc? i = some di →
      (Expression.to_doc? (.ArraySubscript l e i)).isSome = true) ∧
    (∀ (l : Loc) (fn : Expression) (args : List Expression)
        (df : Doc) (ds : List Doc),
      Expression.to_doc? fn = some df → exprsDocs? args = some ds →
      (Expression.to_doc? (.FunctionCall l fn args)).isSome = true) ∧
    (∀ (l : Loc) (b : Expression) (s : Statement) (db ds : Doc),
      Expression.to_doc? b = some db → Statement.to_doc? s = some ds →
      (Expression.to_doc? (.FunctionCallBlock l b s)).isSome = true) ∧
    (∀ (l : Loc) (num exp : String),
      (Expression.to_doc? (.NumberLiteral l num exp)).isSome = true) ∧
    (∀ (l : Loc) (es : List Expression) (ds : List Doc),
      exprsDocs? es = some ds →
      (Expression.to_doc? (.ArrayLiteral l es)).isSome = true) ∧
    (∀ (l : Loc) (t : Ty) (d : Doc), Ty.to_doc? t = some d →
      (Expression.to_doc? (.«Type» l t)).isSome = true) ∧
    (∀ id : Identifier,
      (Expression.to_doc? (.Variable id)).isSome = true) ∧
    (∀ l : Loc, (Expression.to_doc? (.This l)).isSome = true) ∧
    (∀ (l : Loc) (ps : ParameterList) (ds : List Doc),
      paramSlotsDocs? ps = some ds →
      (Expression.to_doc? (.List l ps)).isSome = true) ∧
    (∀ (lits : List StringLiteral) (ds : List Doc),
      strLitsDocs? lits = some ds →
      (Expression.to_doc? (.StringLiteral lits)).isSome = true) ∧
    (∀ (l : Loc) (b : Bool),
      (Expression.to_doc? (.BoolLiteral l b)).isSome = true) ∧
    Ty.to_doc? .Address = some (Doc.text "address") ∧
    Ty.to_doc? .AddressPayable = some (Doc.text "address payable") ∧
    Ty.to_doc? .Payable = some (Doc.text "payable") ∧
    Ty.to_doc? .Bool = some (Doc.text "bool") ∧
    Ty.to_doc? .String = some (Doc.text "string") ∧
    Ty.to_doc? .DynamicBytes = some (Doc.text "bytes") ∧
    (∀ n, Ty.to_doc? (.Int n) =
      some ((Doc.text "int").append (Doc.text (toString n)))) ∧
    (∀ n, Ty.to_doc? (.Uint n) =
      some ((Doc.text "uint").append (Doc.text (toString n)))) ∧
    (∀ n, Ty.to_doc? (.Bytes n) =
      some ((Doc.text "bytes").append (Doc.text (toString n)))) ∧
    (∀ (l : Loc) (f t : Expression) (df dt : Doc),
      Expression.to_doc? f = some df → Expression.to_doc? t = some dt →
      (Ty.to_doc? (.Mapping l f t)).isSome = true) ∧
    (∀ v : Visibility,
      (VariableAttribute.to_doc? (.Visibility v)).isSome = true) ∧
    (∀ l : Loc, (VariableAttribute.to_doc? (.Constant l)).isSome = true) ∧
    (∀ l : Loc,
      (VariableAttribute.to_doc? (.Immutable l)).isSome = true) ∧
    (∀ l : Loc, (FunctionAttribute.to_doc? (.Virtual l)).isSome = true) ∧
    (∀ l : Loc,
      (FunctionAttribute.to_doc? (.Immutable l)).isSome = true) ∧
    (∀ m : Mutability,
      (FunctionAttribute.to_doc? (.Mutability m)).isSome = true) ∧
    (∀ v : Visibility,
      (FunctionAttribute.to_doc? (.Visibility v)).isSome = true) ∧
    (∀ (l : Loc) (b : Base) (d : Doc), Base.to_doc? b = some d →
      (FunctionAttribute.to_doc? (.BaseOrModifier l b)).isSome = true) := by
  and_intros <;> intros <;>
    first
      | rfl
      | simp only [Expression.to_doc?, Statement.to_doc?, Ty.to_doc?,
          FunctionAttribute.to_doc?, Option.isSome_some, *]

/-- C5 witness: the conditional printing conjunct applied at concrete
printable operands, discharging both sub-node hypotheses. -/
theorem c5_amended_fatal_set_witness :
    (Expression.to_doc? (.Add .Codegen (.This .Codegen)
      (.This .Codegen))).isSome = true :=
  c5_amended_fatal_set.1 .Codegen (.This .Codegen) (.This .Codegen)
    (Doc.text "this") (Doc.text "this") rfl rfl

/-- Expressions of the shape `Parenthesis (Parenthesis _)`: the shape
on which a second peel still changes the expression. -/
def isDoubleParen : Expression → Bool
  | .Parenthesis _ (.Parenthesis _ _) => true
  | _ => false

/-- C6. Refuted at `Parenthesis (Parenthesis This)`: the first call
peels one layer, the second call peels another, so the results of one
and two applications differ (structural equality modulo `Loc`). -/
theorem c6_counterexample :
    Expression.beq
      (((Expression.Parenthesis .Codegen (.Parenthesis .Codegen
          (.This .Codegen))).remove_parenthesis).remove_parenthesis)
      ((Expression.Parenthesis .Codegen (.Parenthesis .Codegen
          (.This .Codegen))).remove_parenthesis) = false := by
  decide

/-- C6 (amended). `remove_parenthesis` is idempotent exactly on
expressions that are not doubly parenthesised: one peel reaches a
fixed point whenever the operand under a top-level `Parenthesis` is
not itself a `Parenthesis`. -/
theorem c6_amended_idempotent (e : Expression)
    (h : isDoubleParen e = false) :
    (e.remove_parenthesis).remove_parenthesis = e.remove_parenthesis := by
  cases e <;> try rfl
  rename_i l x
  cases x <;> first
    | rfl
    | simp [isDoubleParen] at h

/-- C6 witness: a singly-parenthesised expression is a fixed point
after one peel. -/
theorem c6_amended_idempotent_witness :
    isDoubleParen (.Parenthesis .Codegen (.This .Codegen)) = false ∧
    ((Expression.Parenthesis .Codegen
        (.This .Codegen)).remove_parenthesis).remove_parenthesis =
      (Expression.Parenthesis .Codegen
        (.This .Codegen)).remove_parenthesis :=
  ⟨rfl, c6_amended_idempotent (.Parenthesis .Codegen (.This .Codegen)) rfl⟩

/-- C7. Refuted: `block_stmt` embeds the statements it receives
unchanged, so a received sub-tree carrying a `File` location survives
inside the returned fragment. -/
theorem c7_counterexample :
    Statement.allCodegen
      (codegen.block_stmt [.Break (.File 0 0 0)]) = false := by
  decide

/-- C7 (amended). Every builder stamps `Loc::Codegen` on each node it
creates itself (the root in particular), and the returned fragment is
all-Codegen at every nesting level provided the argument sub-trees
are; argument sub-trees are embedded unchanged. -/
theorem c7_amended_provenance :
    (∀ ss, stmtsAllCodegen ss = true →
      Statement.allCodegen (codegen.block_stmt ss) = true) ∧
    (∀ n, (codegen.id n).allCodegen = true) ∧
    (∀ n, Expression.allCodegen (codegen.var_expr n) = true) ∧
    (∀ t, Ty.allCodegen t = true →
      Expression.allCodegen (codegen.type_expr t) = true) ∧
    (∀ n args, exprsAllCodegen args = true →
      Expression.allCodegen (codegen.call_expr n args) = true) ∧
    (∀ n args, exprsAllCodegen args = true →
      Statement.allCodegen (codegen.emit_stmt n args) = true) ∧
    (∀ n ps, ps.all EventParameter.allCodegen = true →
      (codegen.event_def n ps).allCodegen = true) ∧
    (∀ t, Ty.allCodegen t = true →
      Parameter.allCodegen (codegen.annon_parameter t) = true) ∧
    (∀ n t, Ty.allCodegen t = true →
      (codegen.event_parameter n t).allCodegen = true) ∧
    (∀ n t, Ty.allCodegen t = true →
      Parameter.allCodegen (codegen.parameter n t) = true) ∧
    (∀ ts, ts.all Ty.allCodegen = true →
      paramSlotsAllCodegen (codegen.annon_parameter_list ts) = true) ∧
    (∀ ps, ps.all (fun p => Ty.allCodegen p.2) = true →
      paramSlotsAllCodegen (codegen.parameter_list ps) = true) ∧
    (∀ n params ret body, paramSlotsAllCodegen params = true →
      (match ret with | some t => Ty.allCodegen t | none => true) = true →
      Statement.allCodegen body = true →
      (codegen.function_def n params ret body).allCodegen = true) ∧
    (∀ p, Parameter.allCodegen p = true →
      (codegen.param_to_event_param p).allCodegen = true) ∧
    (∀ p e, codegen.param_to_arg p = some e →
      Expression.allCodegen e = true) ∧
    (∀ ps es, codegen.params_to_args ps = some es →
      exprsAllCodegen es = true) ∧
    (∀ ps es, codegen.params_to_event_params ps = some es →
      paramSlotsAllCodegen ps = true →
      es.all EventParameter.allCodegen = true) ∧
    (∀ n args, Statement.loc (codegen.emit_stmt n args) = .Codegen) ∧
    (∀ ss, Statement.loc (codegen.block_stmt ss) = .Codegen) ∧
    (∀ n params ret body,
      (codegen.function_def n params ret body).loc = .Codegen) ∧
    (∀ n ps, (codegen.event_def n ps).loc = .Codegen) := by
  refine ⟨?_, fun n => rfl, fun n => rfl, ?_, ?_, ?_, ?_, ?_, ?_, ?_, ?_,
    ?_, ?_, ?_, ?_, ?_, ?_, fun n args => rfl, fun ss => rfl,
    fun n params ret body => rfl, fun n ps => rfl⟩
  · intro ss h
    simp [codegen.block_stmt, Statement.allCodegen, Loc.isCodegen, h]
  · intro t h
    simp [codegen.type_expr, Expression.allCodegen, Loc.isCodegen, h]
  · intro n args h
    simp [codegen.call_expr, codegen.var_expr, codegen.id,
      Expression.allCodegen, Identifier.allCodegen, Loc.isCodegen, h]
  · intro n args h
    simp [codegen.emit_stmt, codegen.call_expr, codegen.var_expr,
      codegen.id, Statement.allCodegen, Expression.allCodegen,
      Identifier.allCodegen, Loc.isCodegen, h]
  · intro n ps h
    simp [codegen.event_def, codegen.id, EventDefinition.allCodegen,
      Identifier.allCodegen, Loc.isCodegen, h]
  · intro t h
    simp [codegen.annon_parameter, codegen.type_expr,
      Parameter.allCodegen, Expression.allCodegen, Loc.isCodegen, h]
  · intro n t h
    simp [codegen.event_parameter, codegen.type_expr, codegen.id,
      EventParameter.allCodegen, Expression.allCodegen,
      Identifier.allCodegen, Loc.isCodegen, h]
  · intro n t h
    simp [codegen.parameter, codegen.type_expr, codegen.id,
      Parameter.allCodegen, Expression.allCodegen,
      Identifier.allCodegen, Loc.isCodegen, h]
  · intro ts h
    induction ts with
    | nil => rfl
    | cons t rest ih =>
      simp [codegen.annon_parameter_list, paramSlotsAllCodegen,
        paramSlotAllCodegen, codegen.annon_parameter, codegen.type_expr,
        Parameter.allCodegen, Expression.allCodegen, Loc.isCodegen] at *
      exact ⟨h.1, ih h.2⟩
  · intro ps h
    induction ps with
    | nil => rfl
    | cons p rest ih =>
      simp [codegen.parameter_list, paramSlotsAllCodegen,
        paramSlotAllCodegen, codegen.parameter, codegen.type_expr,
        codegen.id, Parameter.allCodegen, Expression.allCodegen,
        Identifier.allCodegen, Loc.isCodegen] at *
      exact ⟨h.1, ih h.2⟩
  · intro n params ret body hp hr hb
    cases ret with
    | none =>
      simp [codegen.function_def, codegen.id,
        codegen.annon_parameter_list, FunctionDefinition.allCodegen,
        Identifier.allCodegen, Loc.isCodegen, optLocCodegen,
        attrsAllCodegen, FunctionAttribute.allCodegen,
        Visibility.allCodegen, paramSlotsAllCodegen, optStmtAllCodegen,
        hp, hb]
    | some r =>
      simp at hr
      simp [codegen.function_def, codegen.id,
        codegen.annon_parameter_list, codegen.annon_parameter,
        codegen.type_expr, FunctionDefinition.allCodegen,
        Identifier.allCodegen, Loc.isCodegen, optLocCodegen,
        attrsAllCodegen, FunctionAttribute.allCodegen,
        Visibility.allCodegen, paramSlotsAllCodegen, paramSlotAllCodegen,
        Parameter.allCodegen, Expression.allCodegen, optStmtAllCodegen,
        hp, hb, hr]
  · intro p h
    obtain ⟨l, t, s, n⟩ := p
    cases n <;>
      simp_all [codegen.param_to_event_param, Parameter.allCodegen,
        Parameter.ty, Parameter.name, EventParameter.allCodegen,
        Loc.isCodegen]
  · intro p e h
    obtain ⟨l, t, s, n⟩ := p
    cases n with
    | none => simp [codegen.param_to_arg, Parameter.name] at h
    | some i =>
      simp [codegen.param_to_arg, Parameter.name] at h
      subst h
      rfl
  · intro ps es h
    induction ps generalizing es with
    | nil =>
      simp [codegen.params_to_args] at h
      subst h
      rfl
    | cons slot rest ih =>
      obtain ⟨l, p⟩ := slot
      cases p with
      | none => simp [codegen.params_to_args] at h
      | some p =>
        simp only [codegen.params_to_args] at h
        cases ha : codegen.param_to_arg p with
        | none => rw [ha] at h; cases h
        | some e1 =>
          rw [ha] at h
          cases hr : codegen.params_to_args rest with
          | none => rw [hr] at h; cases h
          | some es1 =>
            rw [hr] at h
            cases h
            have he1 : Expression.allCodegen e1 = true := by
              obtain ⟨pl, pt, pst, pn⟩ := p
              cases pn with
              | none => simp [codegen.param_to_arg, Parameter.name] at ha
              | some i =>
                simp [codegen.param_to_arg, Parameter.name] at ha
                subst ha
                rfl
            simp [exprsAllCodegen, he1, ih es1 hr]
  · intro ps es h hall
    induction ps generalizing es with
    | nil =>
      simp [codegen.params_to_event_params] at h
      subst h
      rfl
    | cons slot rest ih =>
      obtain ⟨l, p⟩ := slot
      cases p with
      | none => simp [codegen.params_to_event_params] at h
      | some p =>
        simp only [codegen.params_to_event_params] at h
        cases hr : codegen.params_to_event_params rest with
        | none => rw [hr] at h; cases h
        | some es1 =>
          rw [hr] at h
          cases h
          simp only [paramSlotsAllCodegen, paramSlotAllCodegen,
            Bool.and_eq_true] at hall
          have hp : EventParameter.allCodegen
              (codegen.param_to_event_param p) = true := by
            obtain ⟨pl, pt, pst, pn⟩ := p
            cases pn <;>
              simp_all [codegen.param_to_event_param,
                Parameter.allCodegen, Parameter.ty, Parameter.name,
                EventParameter.allCodegen, Loc.isCodegen]
          simp [hp, ih es1 hr hall.2]

/-- C7 witness: the preservation statement applied at an all-Codegen
argument list. -/
theorem c7_amended_provenance_witness :
    Statement.allCodegen
      (codegen.block_stmt [codegen.emit_stmt "Hit" []]) = true :=
  c7_amended_provenance.1 [codegen.emit_stmt "Hit" []] (by decide)

/-- C8. Refuted at an unnamed parameter: `param_to_event_param`
returns normally (copying the absent name through), while
`param_to_arg` on the same parameter aborts. -/
theorem c8_counterexample :
    codegen.param_to_event_param
        (.mk .Codegen (codegen.type_expr .Bool) none none) =
      { ty := codegen.type_expr .Bool, loc := .Codegen, indexed := false,
        name := none } ∧
    codegen.params_to_event_params
        [(.Codegen, some (.mk .Codegen (codegen.type_expr .Bool) none none))] =
      some [{ ty := codegen.type_expr .Bool, loc := .Codegen,
              indexed := false, name := none }] ∧
    codegen.param_to_arg
        (.mk .Codegen (codegen.type_expr .Bool) none none) = none :=
  ⟨rfl, rfl, rfl⟩

/-- C8 (amended). The slot assertions require every parameter to be
present; the *named* requirement holds only for `param_to_arg` (and
hence `params_to_args`): `param_to_event_param` has no assertion and
passes the optional name through. -/
theorem c8_amended_conversions :
    (∀ p : Parameter, codegen.param_to_event_param p =
      { ty := p.ty, loc := .Codegen, indexed := false, name := p.name }) ∧
    (∀ p : Parameter, (codegen.param_to_arg p).isSome = p.name.isSome) ∧
    (∀ ps : ParameterList, (codegen.params_to_event_params ps).isSome =
      ps.all (fun s => s.2.isSome)) ∧
    (∀ ps : ParameterList, (codegen.params_to_args ps).isSome =
      ps.all (fun s =>
        match s.2 with
        | some p => p.name.isSome
        | none => false)) := by
  refine ⟨fun p => rfl, ?_, ?_, ?_⟩
  · intro p
    obtain ⟨l, t, s, n⟩ := p
    cases n <;> rfl
  · intro ps
    induction ps with
    | nil => rfl
    | cons slot rest ih =>
      obtain ⟨l, p⟩ := slot
      cases p with
      | none => rfl
      | some p =>
        have hsame :
            (codegen.params_to_event_params ((l, some p) :: rest)).isSome =
              (codegen.params_to_event_params rest).isSome := by
          simp only [codegen.params_to_event_params]
          cases codegen.params_to_event_params rest <;> rfl
        rw [hsame, ih]
        simp [List.all_cons]
  · intro ps
    induction ps with
    | nil => rfl
    | cons slot rest ih =>
      obtain ⟨l, p⟩ := slot
      cases p with
      | none => rfl
      | some p =>
        obtain ⟨pl, pt, pst, pn⟩ := p
        cases pn with
        | none =>
          simp [codegen.params_to_args, codegen.param_to_arg,
            Parameter.name, List.all_cons]
        | some i =>
          have hsame :
              (codegen.params_to_args
                ((l, some (.mk pl pt pst (some i))) :: rest)).isSome =
                (codegen.params_to_args rest).isSome := by
            simp only [codegen.params_to_args, codegen.param_to_arg,
              Parameter.name]
            cases codegen.params_to_args rest <;> rfl
          rw [hsame, ih]
          simp [List.all_cons, Parameter.name]

/-- C9. `function_def` builds exactly the claimed shape: a public
function named at `Codegen`, parameters passed through, a single
`Visibility(Public(None))` attribute, the given body, and returns
wrapped as an anonymous `Codegen` parameter list (empty without a
return type). -/
theorem c9_function_def_shape :
    (∀ (n : String) (params : ParameterList) (r : Ty) (body : Statement),
      codegen.function_def n params (some r) body =
        { loc := .Codegen, ty := .Function,
          name := some { loc := .Codegen, name := n },
          name_loc := .Codegen, params := params,
          attributes := [.Visibility (.Public none)],
          return_not_returns := none,
          returns := [(.Codegen,
            some (.mk .Codegen (.«Type» .Codegen r) none none))],
          body := some body }) ∧
    (∀ (n : String) (params : ParameterList) (body : Statement),
      codegen.function_def n params none body =
        { loc := .Codegen, ty := .Function,
          name := some { loc := .Codegen, name := n },
          name_loc := .Codegen, params := params,
          attributes := [.Visibility (.Public none)],
          return_not_returns := none, returns := [],
          body := some body }) :=
  ⟨fun n params r body => rfl, fun n params body => rfl⟩

/-- C10. `ContractDefinition::to_doc` emits the literal keyword
`contract` and never consults the `ty` field, so abstract, interface
and library definitions print exactly like a contract definition —
even though `ContractTy`'s display form does distinguish the kinds. -/
theorem c10_contract_keyword :
    (∀ (l : Loc) (t t' : ContractTy) (name : Identifier)
        (base : List Base) (parts : List ContractPart),
      ContractDefinition.to_doc? ⟨l, t, name, base, parts⟩ =
        ContractDefinition.to_doc? ⟨l, t', name, base, parts⟩) ∧
    ContractDefinition.display?
        ⟨.Codegen, .Interface .Codegen, ⟨.Codegen, "I"⟩, [], []⟩ =
      some "contract I \x7b\n\x7d" ∧
    ContractDefinition.display?
        ⟨.Codegen, .Abstract .Codegen, ⟨.Codegen, "I"⟩, [], []⟩ =
      ContractDefinition.display?
        ⟨.Codegen, .Contract .Codegen, ⟨.Codegen, "I"⟩, [], []⟩ ∧
    (∀ l : Loc, (ContractTy.Abstract l).toStr = "abstract contract") ∧
    (∀ l : Loc, (ContractTy.Contract l).toStr = "contract") ∧
    (∀ l : Loc, (ContractTy.Interface l).toStr = "interface") ∧
    (∀ l : Loc, (ContractTy.Library l).toStr = "library") :=
  ⟨fun l t t' name base parts => rfl, rfl, rfl, fun l => rfl,
   fun l => rfl, fun l => rfl, fun l => rfl⟩

end Solang
